import Mathlib

/-!
Verification development for the Yappr transcript post-processing pipeline.

JavaScript strings are modelled as `List Char` (`Str`); every JS regex
`String.replace` in the source is modelled by a left-to-right scanner that
mirrors the exact pattern (leftmost match, first-alternative-wins, greedy
quantifiers, continuation after the end of the match in the original
string, replacement text not rescanned), matching JS `/g` semantics.
JS `\s` is modelled by the ASCII whitespace characters, JS `\w` by
`[A-Za-z0-9_]`, and `toLowerCase`/`toUpperCase` by the ASCII case maps,
which agree with JS on all inputs used by the claims.
-/

abbrev Str := List Char

/-- Coerce a Lean string literal to the `List Char` model. -/
def jstr (s : String) : Str := s.data

/-- JS `\s` (ASCII part). -/
def isWs (c : Char) : Bool :=
  c = ' ' || c = '\t' || c = '\n' || c = '\r' || c = '\x0b' || c = '\x0c'

/-- JS `\w`: `[A-Za-z0-9_]`. -/
def isWordC (c : Char) : Bool := c.isAlphanum || c = '_'

/-- ASCII lower-casing of a string (model of `String.prototype.toLowerCase`). -/
def toLowerStr (s : Str) : Str := s.map Char.toLower

/-- Model of `String.prototype.trim()`. -/
def jsTrim (s : Str) : Str :=
  ((s.dropWhile isWs).reverse.dropWhile isWs).reverse

/-- Case-insensitive prefix test; on success returns the rest of `s`
after the prefix (ASCII case folding preserves length). -/
def ciDropPre (pat s : Str) : Option Str :=
  if (toLowerStr pat).isPrefixOf (toLowerStr s) then some (s.drop pat.length) else none

/-- JS-style global regex replacement driver.  `tm s` attempts to match the
pattern at the start of `s`; on success it returns the replacement text and
the remainder of `s` after the match (every pattern below consumes at least
one character, so fuel `s.length` always suffices and the fuel-0 branch is
unreachable). -/
def gReplace (tm : Str → Option (Str × Str)) : Nat → Str → Str
  | 0, s => s
  | _ + 1, [] => []
  | fuel + 1, c :: cs =>
    match tm (c :: cs) with
    | some (rep, rest) => rep ++ gReplace tm fuel rest
    | none => c :: gReplace tm fuel cs

def jsReplace (tm : Str → Option (Str × Str)) (s : Str) : Str :=
  gReplace tm s.length s

/-- Variant of the driver that also tracks the character immediately before
the current position (for `\b` word-boundary tests).  After a match the
previous character is the last character of the matched region of the
original string, as with JS `lastIndex`. -/
def gReplaceB (tm : Option Char → Str → Option (Str × Str)) :
    Nat → Option Char → Str → Str
  | 0, _, s => s
  | _ + 1, _, [] => []
  | fuel + 1, prev, c :: cs =>
    match tm prev (c :: cs) with
    | some (rep, rest) =>
      let consumed := (c :: cs).take ((c :: cs).length - rest.length)
      rep ++ gReplaceB tm fuel (consumed.getLast?.or prev) rest
    | none => c :: gReplaceB tm fuel (some c) cs

def jsReplaceB (tm : Option Char → Str → Option (Str × Str)) (s : Str) : Str :=
  gReplaceB tm s.length none s

/-- `\b` immediately before a word character: start of string or a
non-word character before. -/
def boundaryBefore (prev : Option Char) : Bool :=
  match prev with
  | none => true
  | some p => !isWordC p

-- ===============================================
-- SMART TRANSCRIPTION CLEANUP SYSTEM  (popup.js `cleanTranscription`)
-- ===============================================

/-- Phase 1: `/\s*[\(\[]([^\)\]]*?)[\)\]]\s*/g → ' '`. -/
def p1Try (s : Str) : Option (Str × Str) :=
  let t := s.dropWhile isWs
  match t with
  | c :: u =>
    if c = '(' || c = '[' then
      let inner := u.dropWhile (fun d => !(d = ')' || d = ']'))
      match inner with
      | _ :: rest => some ([' '], rest.dropWhile isWs)
      | [] => none
    else none
  | [] => none

/-- Phase 2: `/\.{3,}/g → '.'`. -/
def p2Try (s : Str) : Option (Str × Str) :=
  let dots := s.takeWhile (· = '.')
  if dots.length ≥ 3 then some (['.'], s.drop dots.length) else none

/-- Phase 3a: `/—\s*$/g → '.'` (first em-dash followed only by whitespace). -/
def phase3a : Str → Str
  | [] => []
  | c :: cs => if c = '—' && cs.all isWs then ['.'] else c :: phase3a cs

/-- Phase 3b: `/—/g → '.'`. -/
def phase3b (s : Str) : Str := s.map (fun c => if c = '—' then '.' else c)

/-- Phase 3c: `/\b(\w+)-\s+\1\b/gi → '$1'`. -/
def p3cTry (prev : Option Char) (s : Str) : Option (Str × Str) :=
  if !boundaryBefore prev then none else
  let w := s.takeWhile isWordC
  if w = [] then none else
  match s.drop w.length with
  | '-' :: r1 =>
    let ws := r1.takeWhile isWs
    if ws = [] then none else
    let r2 := r1.drop ws.length
    match ciDropPre w r2 with
    | some r3 =>
      match r3 with
      | [] => some (w, [])
      | d :: _ => if isWordC d then none else some (w, r3)
    | none => none
  | _ => none

/-- Phase 3d: `/\b\w+-\s+/g → ' '`. -/
def p3dTry (prev : Option Char) (s : Str) : Option (Str × Str) :=
  if !boundaryBefore prev then none else
  let w := s.takeWhile isWordC
  if w = [] then none else
  match s.drop w.length with
  | '-' :: r1 =>
    let ws := r1.takeWhile isWs
    if ws = [] then none else some ([' '], r1.drop ws.length)
  | _ => none

/-- The punctuation class `[.,;:]` used by the filler-word phases. -/
def isPunct4 (c : Char) : Bool := c = '.' || c = ',' || c = ';' || c = ':'

def basicFillerWords : List Str :=
  [jstr "um", jstr "uh", jstr "ah", jstr "er", jstr "hmm", jstr "umm",
   jstr "uhh", jstr "ehh", jstr "mm", jstr "mhm", jstr "laugh",
   jstr "laughs", jstr "cough", jstr "coughs", jstr "pause"]

def carefulFillerWords : List Str :=
  [jstr "like", jstr "well", jstr "so", jstr "anyway", jstr "basically",
   jstr "literally", jstr "actually"]

def phraseFillerWords : List Str :=
  [jstr "i mean", jstr "you know", jstr "kind of", jstr "sort of"]

/-- First alternative (in list order) that matches case-insensitively at the
start of `s`, returning the rest after it. -/
def firstAlt (alts : List Str) (s : Str) : Option Str :=
  match alts with
  | [] => none
  | a :: rest =>
    match ciDropPre a s with
    | some r => some r
    | none => firstAlt rest s

/-- Phase 4a: `/\b(um|uh|…|pause)[.,;:]*\s*/gi → ' '`. -/
def p4aTry (prev : Option Char) (s : Str) : Option (Str × Str) :=
  if !boundaryBefore prev then none else
  match firstAlt basicFillerWords s with
  | some r0 => some ([' '], (r0.dropWhile isPunct4).dropWhile isWs)
  | none => none

/-- First alternative that matches case-insensitively and whose remainder,
after a greedy `[.,;:]*` run, starts with whitespace (`\s+`); returns the
rest after the whole match. -/
def firstAltPunctWs (alts : List Str) (s : Str) : Option Str :=
  match alts with
  | [] => none
  | a :: rest =>
    match ciDropPre a s with
    | some r0 =>
      let r1 := r0.dropWhile isPunct4
      match r1 with
      | c :: _ => if isWs c then some (r1.dropWhile isWs) else firstAltPunctWs rest s
      | [] => firstAltPunctWs rest s
    | none => firstAltPunctWs rest s

/-- Phase 4b: `/\b(like|well|so|anyway|basically|literally|actually)[.,;:]*\s+/gi → ' '`. -/
def p4bTry (prev : Option Char) (s : Str) : Option (Str × Str) :=
  if !boundaryBefore prev then none else
  match firstAltPunctWs carefulFillerWords s with
  | some rest => some ([' '], rest)
  | none => none

/-- Phase 4c: `/\b(i mean|you know|kind of|sort of)[.,;:]*\s*/gi → ' '`. -/
def p4cTry (prev : Option Char) (s : Str) : Option (Str × Str) :=
  if !boundaryBefore prev then none else
  match firstAlt phraseFillerWords s with
  | some r0 => some ([' '], (r0.dropWhile isPunct4).dropWhile isWs)
  | none => none

/-- Phase 4d: `/^\s*(um|…|actually)[.,;:]*\s+/gi → ''` — anchored at the
start of the string, so applied at most once. -/
def phase4d (s : Str) : Str :=
  let r := s.dropWhile isWs
  match firstAltPunctWs (basicFillerWords ++ carefulFillerWords) r with
  | some rest => rest
  | none => s

/-- Orphan commas: `/\s+,\s+/g → ', '`. -/
def ocSpaceCommaTry (s : Str) : Option (Str × Str) :=
  let ws1 := s.takeWhile isWs
  if ws1 = [] then none else
  match s.drop ws1.length with
  | ',' :: r1 =>
    let ws2 := r1.takeWhile isWs
    if ws2 = [] then none else some ([',', ' '], r1.drop ws2.length)
  | _ => none

/-- `/,\s*,+/g → ','`. -/
def ocMultiCommaTry (s : Str) : Option (Str × Str) :=
  match s with
  | ',' :: r0 =>
    let r1 := r0.dropWhile isWs
    let commas := r1.takeWhile (· = ',')
    if commas = [] then none else some ([','], r1.drop commas.length)
  | _ => none

/-- `/\.\s*\.+/g → '.'`. -/
def ocMultiPeriodTry (s : Str) : Option (Str × Str) :=
  match s with
  | '.' :: r0 =>
    let r1 := r0.dropWhile isWs
    let dots := r1.takeWhile (· = '.')
    if dots = [] then none else some (['.'], r1.drop dots.length)
  | _ => none

/-- Phase 5: `/\b(\w+)\s+\1\b/gi → '$1'` (adjacent duplicate words). -/
def p5Try (prev : Option Char) (s : Str) : Option (Str × Str) :=
  if !boundaryBefore prev then none else
  let w := s.takeWhile isWordC
  if w = [] then none else
  let r0 := s.drop w.length
  let ws := r0.takeWhile isWs
  if ws = [] then none else
  let r1 := r0.drop ws.length
  match ciDropPre w r1 with
  | some r2 =>
    match r2 with
    | [] => some (w, [])
    | d :: _ => if isWordC d then none else some (w, r2)
  | none => none

/-- Phase 6: `/\s{2,}/g → ' '`. -/
def p6Try (s : Str) : Option (Str × Str) :=
  let ws := s.takeWhile isWs
  if ws.length ≥ 2 then some ([' '], s.drop ws.length) else none

/-- Phase 7 punctuation class `[.,!?;:]`. -/
def isPunct7 (c : Char) : Bool :=
  c = '.' || c = ',' || c = '!' || c = '?' || c = ';' || c = ':'

/-- Phase 7: `/\s+([.,!?;:])/g → '$1'`. -/
def p7Try (s : Str) : Option (Str × Str) :=
  let ws := s.takeWhile isWs
  if ws = [] then none else
  match s.drop ws.length with
  | c :: rest => if isPunct7 c then some ([c], rest) else none
  | [] => none

/-- Phase 8: `/[.,]{2,}/g → '.'`. -/
def p8aTry (s : Str) : Option (Str × Str) :=
  let run := s.takeWhile (fun c => c = '.' || c = ',')
  if run.length ≥ 2 then some (['.'], s.drop run.length) else none

/-- `/,\s*\./g → '.'`. -/
def p8bTry (s : Str) : Option (Str × Str) :=
  match s with
  | ',' :: r0 =>
    match r0.dropWhile isWs with
    | '.' :: rest => some (['.'], rest)
    | _ => none
  | _ => none

/-- `/;\s*[.,]/g → ';'`. -/
def p8cTry (s : Str) : Option (Str × Str) :=
  match s with
  | ';' :: r0 =>
    match r0.dropWhile isWs with
    | c :: rest => if c = '.' || c = ',' then some ([';'], rest) else none
    | [] => none
  | _ => none

/-- `/:\s*[.,;]/g → ':'`. -/
def p8dTry (s : Str) : Option (Str × Str) :=
  match s with
  | ':' :: r0 =>
    match r0.dropWhile isWs with
    | c :: rest => if c = '.' || c = ',' || c = ';' then some ([':'], rest) else none
    | [] => none
  | _ => none

def isSentEnd (c : Char) : Bool := c = '.' || c = '!' || c = '?'

/-- `/([.!?])\s{2,}/g → '$1 '`. -/
def p8eTry (s : Str) : Option (Str × Str) :=
  match s with
  | c :: r0 =>
    if isSentEnd c then
      let ws := r0.takeWhile isWs
      if ws.length ≥ 2 then some ([c, ' '], r0.drop ws.length) else none
    else none
  | [] => none

/-- `/([,;:])\s{2,}/g → '$1 '`. -/
def p8fTry (s : Str) : Option (Str × Str) :=
  match s with
  | c :: r0 =>
    if c = ',' || c = ';' || c = ':' then
      let ws := r0.takeWhile isWs
      if ws.length ≥ 2 then some ([c, ' '], r0.drop ws.length) else none
    else none
  | [] => none

def isAsciiLower (c : Char) : Bool := 'a' ≤ c && c ≤ 'z'

/-- Phase 9: `/([.!?])\s*([a-z])/g → punct + ' ' + upper(letter)`. -/
def p9Try (s : Str) : Option (Str × Str) :=
  match s with
  | c :: r0 =>
    if isSentEnd c then
      match r0.dropWhile isWs with
      | l :: rest => if isAsciiLower l then some ([c, ' ', l.toUpper], rest) else none
      | [] => none
    else none
  | [] => none

/-- Phase 10: `/\?\s*([a-z])/g → '? ' + upper(letter)`. -/
def p10Try (s : Str) : Option (Str × Str) :=
  match s with
  | '?' :: r0 =>
    match r0.dropWhile isWs with
    | l :: rest => if isAsciiLower l then some (['?', ' ', l.toUpper], rest) else none
    | [] => none
  | _ => none

/-- The string ends in `.`, `!` or `?` (JS `/[.!?]$/`). -/
def endsSentence (s : Str) : Bool :=
  match s.getLast? with
  | some c => isSentEnd c
  | none => false

/-- Phase 11: append a period when the non-empty result does not already end
in a sentence mark. -/
def phase11 (s : Str) : Str :=
  if s ≠ [] ∧ endsSentence s = false then s ++ ['.'] else s

/-- The ordered cleanup phases 1–10 applied to the (possibly truncated) text. -/
def cleanupPhases (t : Str) : Str :=
  let c := jsReplace p1Try t
  let c := jsReplace p2Try c
  let c := phase3a c
  let c := phase3b c
  let c := jsReplaceB p3cTry c
  let c := jsReplaceB p3dTry c
  let c := jsReplaceB p4aTry c
  let c := jsReplaceB p4bTry c
  let c := jsReplaceB p4cTry c
  let c := phase4d c
  let c := jsReplace ocSpaceCommaTry c
  let c := jsReplace ocMultiCommaTry c
  let c := jsReplace ocMultiPeriodTry c
  let c := jsReplaceB p5Try c
  let c := jsReplace p6Try c
  let c := jsTrim c
  let c := jsReplace p7Try c
  let c := jsReplace p8aTry c
  let c := jsReplace p8bTry c
  let c := jsReplace p8cTry c
  let c := jsReplace p8dTry c
  let c := jsReplace p8eTry c
  let c := jsReplace p8fTry c
  let c := jsReplace p9Try c
  let c := jsReplace p10Try c
  c

/-- popup.js `cleanTranscription` (the internal `try`/`catch` is fail-open
and the pure model cannot fault, so it is not represented). -/
def cleanTranscription (text : Str) : Str :=
  if text = [] then []
  else
    let start := if text.length > 10000 then text.take 10000 ++ jstr "..." else text
    let cleaned := phase11 (cleanupPhases start)
    if cleaned = [] ∨ jsTrim cleaned = [] then text else cleaned

-- ===============================================
-- TEXT FORMATTING  (popup.js `formatTextIntoParagraphs`, `countWords`,
-- `extractCleanContent`)
-- ===============================================

def TOPIC_TRANSITIONS : List Str :=
  [jstr "however", jstr "but", jstr "although", jstr "meanwhile",
   jstr "furthermore", jstr "moreover", jstr "additionally",
   jstr "on the other hand", jstr "in contrast", jstr "nevertheless",
   jstr "therefore", jstr "consequently", jstr "as a result",
   jstr "in conclusion", jstr "first", jstr "second", jstr "third",
   jstr "finally", jstr "lastly", jstr "next", jstr "then", jstr "now",
   jstr "so", jstr "anyway", jstr "also", jstr "actually",
   jstr "basically", jstr "essentially"]

def TIME_INDICATORS : List Str :=
  [jstr "yesterday", jstr "today", jstr "tomorrow", jstr "last week",
   jstr "next week", jstr "last month", jstr "next month",
   jstr "last year", jstr "next year", jstr "earlier", jstr "later",
   jstr "recently", jstr "soon", jstr "eventually"]

def MAX_PARAGRAPH_SENTENCES : Nat := 3
def MAX_PARAGRAPH_WORDS : Nat := 80
def MIN_PARAGRAPH_WORDS : Nat := 40

/-- `/\s+/g → ' '` (collapse every whitespace run to one space). -/
def wsRunTry (s : Str) : Option (Str × Str) :=
  let ws := s.takeWhile isWs
  if ws = [] then none else some ([' '], s.drop ws.length)

/-- `/([.!?])\s*([A-Z])/g → '$1 $2'`. -/
def capSpacingTry (s : Str) : Option (Str × Str) :=
  match s with
  | c :: r0 =>
    if isSentEnd c then
      match r0.dropWhile isWs with
      | l :: rest => if 'A' ≤ l && l ≤ 'Z' then some ([c, ' ', l], rest) else none
      | [] => none
    else none
  | [] => none

/-- `text.trim().replace(/\s+/g,' ').replace(/([.!?])\s*([A-Z])/g,'$1 $2')`. -/
def formatCleanText (text : Str) : Str :=
  jsReplace capSpacingTry (jsReplace wsRunTry (jsTrim text))

/-- JS `split(/([.!?]+)/)`: alternating text segments and captured
delimiter runs (leading/trailing segments may be empty). -/
def splitKeepSeps : Nat → Str → List Str
  | 0, s => [s]
  | _ + 1, [] => [[]]
  | fuel + 1, s@(_ :: _) =>
    let seg := s.takeWhile (fun c => !isSentEnd c)
    let rest := s.drop seg.length
    match rest with
    | [] => [seg]
    | _ :: _ =>
      let run := rest.takeWhile isSentEnd
      seg :: run :: splitKeepSeps fuel (rest.drop run.length)

/-- JS `str.split(/\s+/)` (including possible leading/trailing empty
segments, as in JS). -/
def jsSplitWs : Nat → Str → List Str
  | 0, s => [s]
  | _ + 1, [] => [[]]
  | fuel + 1, s@(_ :: _) =>
    let seg := s.takeWhile (fun c => !isWs c)
    let rest := s.drop seg.length
    match rest with
    | [] => [seg]
    | _ :: _ => seg :: jsSplitWs fuel (rest.dropWhile isWs)

/-- `/^(well|so|now|anyway|look|listen|you know what)\s+/i`. -/
def discourseMarkers : List Str :=
  [jstr "well", jstr "so", jstr "now", jstr "anyway", jstr "look",
   jstr "listen", jstr "you know what"]

def discourseTest (sentence : Str) : Bool :=
  discourseMarkers.any fun d =>
    match ciDropPre d sentence with
    | some r => match r with
      | c :: _ => isWs c
      | [] => false
    | none => false

/-- JS `String.prototype.includes` (substring containment). -/
def includesSub (s pat : Str) : Bool :=
  (List.range (s.length + 1)).any fun i => pat.isPrefixOf (s.drop i)

def shouldBreakSentence (sentenceCount wordCount : Nat) (sentence : Str) : Bool :=
  let lower := toLowerStr sentence
  (sentenceCount ≥ 2 && wordCount ≥ MIN_PARAGRAPH_WORDS) ||
  (sentenceCount ≥ MAX_PARAGRAPH_SENTENCES) ||
  (wordCount ≥ MAX_PARAGRAPH_WORDS) ||
  (TOPIC_TRANSITIONS.any fun t =>
    (t ++ [' ']).isPrefixOf lower || includesSub lower ([',', ' '] ++ t ++ [' '])) ||
  (TIME_INDICATORS.any fun t => includesSub lower t) ||
  discourseTest sentence

structure ParaState where
  paragraphs : List Str
  currentParagraph : List Str
  sentenceCount : Nat
  wordCount : Nat

def paraStep (st : ParaState) (rawSeg : Str) : ParaState :=
  let sentence := jsTrim rawSeg
  if sentence = [] then st
  else
    let words := (jsSplitWs sentence.length sentence).length
    let brk := shouldBreakSentence st.sentenceCount st.wordCount sentence
    let st :=
      if brk && st.currentParagraph ≠ [] then
        { paragraphs := st.paragraphs ++ [jsTrim (List.intercalate [' '] st.currentParagraph)],
          currentParagraph := [], sentenceCount := 0, wordCount := 0 }
      else st
    { st with currentParagraph := st.currentParagraph ++ [sentence],
              sentenceCount := st.sentenceCount + 1,
              wordCount := st.wordCount + words }

/-- `/\s+([.!?])/g → '$1'` (final spacing fix in `formatTextIntoParagraphs`). -/
def finalSpacingTry (s : Str) : Option (Str × Str) :=
  let ws := s.takeWhile isWs
  if ws = [] then none else
  match s.drop ws.length with
  | c :: rest => if isSentEnd c then some ([c], rest) else none
  | [] => none

/-- popup.js `formatTextIntoParagraphs`. -/
def formatTextIntoParagraphs (text : Str) : Str :=
  if text = [] ∨ (jsTrim text).length = 0 then text
  else
    let cleanText := formatCleanText text
    let sentences := (splitKeepSeps cleanText.length cleanText).filter
      (fun s => (jsTrim s).length > 0)
    if sentences.length ≤ 2 then cleanText
    else
      let st := sentences.foldl paraStep ⟨[], [], 0, 0⟩
      let paragraphs :=
        if st.currentParagraph ≠ [] then
          st.paragraphs ++ [jsTrim (List.intercalate [' '] st.currentParagraph)]
        else st.paragraphs
      let result :=
        if paragraphs.length > 1 then List.intercalate ['\n', '\n'] paragraphs
        else cleanText
      jsReplace finalSpacingTry result

/-- popup.js `countWords`. -/
def countWords (text : Str) : Nat :=
  if text = [] ∨ (jsTrim text).length = 0 then 0
  else (jsSplitWs (jsTrim text).length (jsTrim text)).length

/-- The punctuation class `[.,!?;:'")\]\}]` skipped after an activation
phrase. -/
def isPhrasePunct (c : Char) : Bool :=
  c = '.' || c = ',' || c = '!' || c = '?' || c = ';' || c = ':' ||
  c = '\'' || c = '"' || c = ')' || c = ']' || c = '\x7d'

/-- popup.js `extractCleanContent`. -/
def extractCleanContent (transcription activationPhrase : Str) : Str :=
  if transcription = [] ∨ activationPhrase = [] then transcription
  else
    let lowerTranscription := jsTrim (toLowerStr transcription)
    let lowerPhrase := jsTrim (toLowerStr activationPhrase)
    if lowerPhrase.isPrefixOf lowerTranscription then
      jsTrim (((transcription.drop activationPhrase.length).dropWhile
        isPhrasePunct).dropWhile isWs)
    else transcription

-- ===============================================
-- METRICS COMPUTATION  (popup.js `computeSessionMetrics` and helpers)
-- ===============================================

/-- Round half up of the fraction `n / d` (for `d > 0`); `Int` division is
Euclidean, so this is `⌊n / d + 1/2⌋`. -/
def jsRoundFrac (n d : ℤ) : ℤ := (2 * n + d) / (2 * d)

/-- JS `Math.round` on an exact rational (round half up). -/
def jsRound (q : ℚ) : ℤ := jsRoundFrac q.num q.den

/-- popup.js `calculateWPM`: `Math.round(words / duration * 60)`, computed
on the exact fraction `(words * 60 * den) / num`. -/
def calculateWPM (text : Str) (durationSeconds : ℚ) : ℤ :=
  if durationSeconds ≤ 0 then 0
  else jsRoundFrac ((countWords text : ℤ) * 60 * durationSeconds.den)
    durationSeconds.num

def singleWordFillers : List Str :=
  [jstr "um", jstr "uh", jstr "er", jstr "ah", jstr "like",
   jstr "basically", jstr "literally", jstr "actually", jstr "obviously",
   jstr "clearly", jstr "anyway", jstr "so", jstr "well", jstr "right",
   jstr "okay", jstr "alright"]

def multiWordFillers : List Str :=
  [jstr "i mean", jstr "you know", jstr "sort of", jstr "kind of"]

/-- Non-overlapping occurrence count of a (non-empty) literal pattern,
modelling `text.match(new RegExp(phrase, 'g'))`. -/
def countOccur (pat : Str) : Nat → Str → Nat
  | 0, _ => 0
  | _ + 1, [] => 0
  | fuel + 1, c :: cs =>
    if pat ≠ [] && pat.isPrefixOf (c :: cs) then
      1 + countOccur pat fuel ((c :: cs).drop pat.length)
    else countOccur pat fuel cs

/-- popup.js `getFillerWordsBreakdown`: total count plus the per-token
breakdown (keys in insertion order: single-word fillers then phrases). -/
def getFillerWordsBreakdown (text : Str) : Nat × List (Str × Nat) :=
  if text = [] then (0, [])
  else
    let textLower := toLowerStr text
    let words := jsSplitWs textLower.length textLower
    let cleanWords := words.map (fun w => w.filter isWordC)
    let singles := singleWordFillers.map fun f => (f, cleanWords.count f)
    let multis := multiWordFillers.map fun f =>
      (f, countOccur f textLower.length textLower)
    ((singles.map (·.2)).sum + (multis.map (·.2)).sum, singles ++ multis)

/-- popup.js `countFillerWords`. -/
def countFillerWords (text : Str) : Nat := (getFillerWordsBreakdown text).1

/-- `text.split(/[.!?]+/)` (segments only; no captured delimiters). -/
def splitOnSent : Nat → Str → List Str
  | 0, s => [s]
  | _ + 1, [] => [[]]
  | fuel + 1, s@(_ :: _) =>
    let seg := s.takeWhile (fun c => !isSentEnd c)
    let rest := s.drop seg.length
    match rest with
    | [] => [seg]
    | _ :: _ => seg :: splitOnSent fuel (rest.dropWhile isSentEnd)

/-- popup.js `countUniqueWords`. -/
def countUniqueWords (text : Str) : Nat :=
  if text = [] then 0
  else
    let t := (toLowerStr text).filter (fun c => isWordC c || isWs c)
    (((jsSplitWs t.length t).filter (fun w => w.length > 0)).dedup).length

/-- popup.js `calculateAverageWordsPerSentence` (rounded to one decimal). -/
def calculateAverageWordsPerSentence (text : Str) : ℚ :=
  if text = [] then 0
  else
    let sentences := (splitOnSent text.length text).filter
      (fun s => (jsTrim s).length > 0)
    if sentences.length = 0 then 0
    else (jsRoundFrac ((countWords text : ℤ) * 10) sentences.length : ℚ) / 10

/-- popup.js `calculateSpeechRate` (characters per minute). -/
def calculateSpeechRate (text : Str) (durationSeconds : ℚ) : ℤ :=
  if durationSeconds ≤ 0 then 0
  else jsRoundFrac (((text.filter (fun c => !isWs c)).length : ℤ) * 60 *
    durationSeconds.den) durationSeconds.num

/-- The metrics value object (the `timestamp`/`sessionId` metadata fields
come from external `Date`/UUID collaborators and are not modelled). -/
structure SessionMetrics where
  totalWords : Nat
  sessionDuration : ℤ
  wordsPerMinute : ℤ
  fillerWords : Nat
  fillerWordsBreakdown : List (Str × Nat)
  uniqueWords : Nat
  averageWordsPerSentence : ℚ
  speechRate : ℤ
  cleanupUsed : Bool
  wordsRemoved : ℤ
deriving DecidableEq, Repr

/-- popup.js `computeSessionMetrics`. -/
def computeSessionMetrics (rawText : Str) (cleanedText : Option Str)
    (duration : ℚ) : Option SessionMetrics :=
  if rawText = [] ∨ duration ≤ 0 then none
  else some
    { totalWords := countWords rawText
      sessionDuration := jsRound duration
      wordsPerMinute := calculateWPM rawText duration
      fillerWords := countFillerWords rawText
      fillerWordsBreakdown := (getFillerWordsBreakdown rawText).2
      uniqueWords := countUniqueWords rawText
      averageWordsPerSentence := calculateAverageWordsPerSentence rawText
      speechRate := calculateSpeechRate rawText duration
      cleanupUsed :=
        match cleanedText with
        | none => false
        | some c => c ≠ [] && c ≠ rawText
      wordsRemoved :=
        match cleanedText with
        | none => 0
        | some c => if c ≠ [] then (countWords rawText : ℤ) - countWords c else 0 }

-- ===============================================
-- TEMPLATE ENGINE  (popup.js `TemplateEngine`)
-- ===============================================

structure RenderResult where
  success : Bool
  result : Str
  missingVars : List Str
  error : Option Str
deriving DecidableEq, Repr

/-- A JS variables object: association list of names to values, where a
value of `none` models `null` (for a name absent from the list the lookup
yields `undefined`). -/
abbrev VarMap := List (Str × Option Str)

namespace TemplateEngine

/-- Scanner for `/\{([^}]+)\}/g` matches (capture bodies, in order). -/
def extractVarsGo : Nat → Str → List Str
  | 0, _ => []
  | _ + 1, [] => []
  | fuel + 1, c :: cs =>
    if c = '\x7b' then
      let body := cs.takeWhile (· ≠ '\x7d')
      match cs.drop body.length with
      | _ :: r2 => if body = [] then extractVarsGo fuel cs else body :: extractVarsGo fuel r2
      | [] => extractVarsGo fuel cs
    else extractVarsGo fuel cs

/-- `[...new Set(matches)]`: deduplicate keeping first occurrences. -/
def dedupFirst (seen : List Str) : List Str → List Str
  | [] => []
  | x :: xs =>
    if seen.contains x then dedupFirst seen xs
    else x :: dedupFirst (x :: seen) xs

/-- popup.js `TemplateEngine.extractTemplateVariables`. -/
def extractTemplateVariables (template : Str) : List Str :=
  dedupFirst [] (extractVarsGo template.length template)

def getVarValue (vars : VarMap) (name : Str) : Option (Option Str) :=
  (vars.find? (fun kv => kv.1 = name)).map (·.2)

/-- A variable is missing when absent (`undefined`), `null`, or `''`. -/
def isMissingVar (vars : VarMap) (name : Str) : Bool :=
  match getVarValue vars name with
  | none => true
  | some none => true
  | some (some v) => v = []

/-- popup.js `TemplateEngine.findMissingVariables`. -/
def findMissingVariables (templateVars : List Str) (vars : VarMap) : List Str :=
  templateVars.filter (isMissingVar vars)

/-- Literal non-overlapping global replacement (the placeholder pattern is
regex-escaped in the source, so it matches literally; `$`-escape processing
of the replacement string is not modelled — no claim exercises it). -/
def replaceAllGo (pat rep : Str) : Nat → Str → Str
  | 0, s => s
  | _ + 1, [] => []
  | fuel + 1, c :: cs =>
    if pat ≠ [] && pat.isPrefixOf (c :: cs) then
      rep ++ replaceAllGo pat rep fuel ((c :: cs).drop pat.length)
    else c :: replaceAllGo pat rep fuel cs

def replaceAll (pat rep s : Str) : Str := replaceAllGo pat rep s.length s

/-- popup.js `TemplateEngine.render`. -/
def render (template : Str) (vars : VarMap) : RenderResult :=
  if template = [] then
    { success := false, result := [], missingVars := []
      error := some (jstr "No template provided") }
  else
    let templateVars := extractTemplateVariables template
    let missing := findMissingVariables templateVars vars
    if missing ≠ [] then
      { success := false, result := [], missingVars := missing
        error := some (jstr "Missing required variables: " ++
          List.intercalate (jstr ", ") missing) }
    else
      let result := vars.foldl
        (fun acc kv =>
          replaceAll (['\x7b'] ++ kv.1 ++ ['\x7d']) (kv.2.getD (jstr "null")) acc)
        template
      { success := true, result := result, missingVars := [], error := none }

/-- popup.js `TemplateEngine.validateTemplate`. -/
def validateTemplate (template : Str) : Bool × Option Str :=
  if template = [] then (false, some (jstr "Template must be a non-empty string"))
  else if (template.count '\x7b') ≠ (template.count '\x7d') then
    (false, some (jstr "Unmatched braces in template"))
  else if includesSub template ['\x7b', '\x7d'] then
    (false, some (jstr "Empty variable placeholder found"))
  else (true, none)

end TemplateEngine

-- ===============================================
-- PRESET MANAGEMENT SYSTEM  (popup.js `PresetManager`)
-- ===============================================

/-- A preset record (timestamps are modelled as naturals supplied by the
caller in place of `Date.now()`). -/
structure Preset where
  id : Str
  name : Str
  prompt : Str
  isDefault : Bool
  isSystem : Bool
  enabled : Bool
  createdAt : Nat
  lastUsed : Option Nat
  usageCount : Nat
deriving DecidableEq, Repr

/-- The manager's state: the preset `Map` (insertion-ordered, keyed by id)
and the current selection. -/
structure PMState where
  presets : List Preset
  selectedPresetId : Option Str
deriving DecidableEq, Repr

namespace PresetManager

/-- `Map.get`. -/
def findPreset (presets : List Preset) (pid : Str) : Option Preset :=
  presets.find? (fun p => p.id = pid)

/-- `Map.has`. -/
def hasPreset (presets : List Preset) (pid : Str) : Bool :=
  presets.any (fun p => p.id = pid)

/-- `Map.set`: replace in place when the key exists, else append. -/
def setPreset (presets : List Preset) (p : Preset) : List Preset :=
  if hasPreset presets p.id then
    presets.map (fun q => if q.id = p.id then p else q)
  else presets ++ [p]

/-- popup.js `getDefaultPresetsDefinition` (system presets). -/
def getDefaultPresetsDefinition (now : Nat) : List Preset :=
  [{ id := jstr "default-email", name := jstr "Email"
     prompt := jstr "Reformat the user message.
- Structure it for email communication, with every sentence or so in a new paragraph.
- Include a greeting and a sign-off.
- Check for correct grammar and punctuation.
- Do not change the tone.
- Do not use markdown.
- Use as much of the original text as possible.
- Sign off each email just \"Thanks,\" or \"Cheers,\".
- If the name of the recipient isn't known use \"Hey,\" for greeting.

Original transcript: {transcript}"
     isDefault := true, isSystem := true, enabled := true
     createdAt := now, lastUsed := none, usageCount := 0 },
   { id := jstr "default-professional", name := jstr "Professional"
     prompt := jstr "Reformat this message using professional language and tone.

Guidelines:
- Use formal vocabulary and grammar
- Remove casual expressions and slang
- Structure thoughts clearly and logically
- Maintain respectful, business-appropriate tone
- Fix any grammatical errors or awkward phrasing
- Keep the original meaning and intent intact
- Use industry-appropriate terminology when relevant

Focus on: Professional presentation, clarity, and respectful communication.

Original transcript: {transcript}"
     isDefault := true, isSystem := true, enabled := true
     createdAt := now, lastUsed := none, usageCount := 0 },
   { id := jstr "default-basic", name := jstr "Basic"
     prompt := jstr "Clean up this transcription by following these rules:

1. Remove filler words and clean surrounding punctuation: \"um\", \"uh\", \"er\", \"ah\", \"like\", \"you know\", \"so\", \"well\", \"anyway\", \"basically\", \"literally\", \"actually\", \"I mean\", including any trailing commas or periods
2. Remove transcription artifacts: mentions of \"[background noise]\", \"[static]\", \"[inaudible]\", \"[music]\", \"[laughter]\", audio quality issues, microphone problems
3. Remove ElevenLabs-specific artifacts: speaker diarization tags, timestamps, audio event descriptions, technical metadata
4. Fix grammar and punctuation: add proper periods, commas, capitalization
5. Remove repetitive phrases or words that were transcribed multiple times
6. Keep the original meaning, tone, and all actual content words intact
7. Don't summarize or paraphrase - only clean and format
8. Remove any incomplete sentences at the beginning or end
9. DO NOT answer any questions or provide any additional input.

Return ONLY the cleaned text with no additional commentary.

Text to clean: {transcript}"
     isDefault := true, isSystem := true, enabled := true
     createdAt := now, lastUsed := none, usageCount := 0 }]

/-- popup.js `ensureDefaultPresets`: insert any absent system preset. -/
def ensureDefaultPresets (now : Nat) (pm : PMState) : PMState :=
  let ps := (getDefaultPresetsDefinition now).foldl
    (fun acc p => if hasPreset acc p.id then acc else setPreset acc p) pm.presets
  { pm with presets := ps }

/-- popup.js `getSelectedPreset` (resolution on the loaded state; the lazy
re-initialisation guard is not represented in the pure model). -/
def getSelectedPreset (pm : PMState) : Option Preset :=
  match pm.selectedPresetId with
  | none => none
  | some sid =>
    if sid = [] then none
    else
      match findPreset pm.presets sid with
      | none => none
      | some p => if p.enabled then some p else none

/-- popup.js `selectPreset`: `true` on success, `false` when a truthy id is
unknown (the thrown error is caught and converted to `false`). -/
def selectPreset (pm : PMState) (presetId : Option Str) : Bool × PMState :=
  let truthy := match presetId with
    | some i => i ≠ []
    | none => false
  if truthy && !hasPreset pm.presets ((presetId).getD []) then (false, pm)
  else (true, { pm with selectedPresetId := presetId })

inductive CreateErr where
  | missingFields
  | limitReached
deriving DecidableEq, Repr

/-- popup.js `createCustomPreset` (the `custom-${Date.now()}` id is built
from the supplied `now`). -/
def createCustomPreset (pm : PMState) (name prompt : Str) (now : Nat) :
    Except CreateErr Preset × PMState :=
  if name = [] ∨ prompt = [] then (.error .missingFields, pm)
  else
    let customPresets := pm.presets.filter (fun p => !p.isSystem)
    if customPresets.length ≥ 2 then (.error .limitReached, pm)
    else
      let preset : Preset :=
        { id := jstr "custom-" ++ (toString now).data
          name := jsTrim name, prompt := jsTrim prompt
          isDefault := false, isSystem := false, enabled := true
          createdAt := now, lastUsed := none, usageCount := 0 }
      (.ok preset, { pm with presets := setPreset pm.presets preset })

/-- popup.js `updateUsageStats` (silent no-op when the preset is gone). -/
def updateUsageStats (pm : PMState) (presetId : Str) (now : Nat) : PMState :=
  match findPreset pm.presets presetId with
  | none => pm
  | some p =>
    { pm with presets :=
        setPreset pm.presets { p with lastUsed := some now, usageCount := p.usageCount + 1 } }

/-- popup.js `deletePreset`: throws (Left) for an unknown id or a system
preset; otherwise removes the preset and clears a matching selection. -/
def deletePreset (pm : PMState) (presetId : Str) : Except Str Unit × PMState :=
  match findPreset pm.presets presetId with
  | none => (.error (jstr "Preset not found"), pm)
  | some preset =>
    if preset.isSystem then (.error (jstr "Cannot delete system preset"), pm)
    else
      let presets := pm.presets.filter (fun p => p.id ≠ presetId)
      let selected :=
        if pm.selectedPresetId = some presetId then none else pm.selectedPresetId
      (.ok (), { presets := presets, selectedPresetId := selected })

/-- The legacy URL-based storage inspected by the migration (an empty
prompt models a missing/falsy key; `none` for an enabled flag models an
absent key, so `enabled` becomes `flag !== false`). -/
structure LegacyUrlData where
  twitterCustomPrompt : Str
  linkedinCustomPrompt : Str
  gmailCustomPrompt : Str
  twitterPresetEnabled : Option Bool
  linkedinPresetEnabled : Option Bool
  gmailPresetEnabled : Option Bool
deriving DecidableEq, Repr

def migratedPreset (pid pname prompt : Str) (flag : Option Bool) (now : Nat) : Preset :=
  { id := pid, name := pname, prompt := prompt
    isDefault := false, isSystem := false
    enabled := flag ≠ some false
    createdAt := now, lastUsed := none, usageCount := 0 }

/-- popup.js `migrateFromUrlSystem` (the storage-key cleanup and the UI
notice have no effect on the preset state). -/
def migrateFromUrlSystem (pm : PMState) (old : LegacyUrlData) (now : Nat) : PMState :=
  let ps := pm.presets
  let ps := if old.twitterCustomPrompt ≠ [] then
      setPreset ps (migratedPreset (jstr "migrated-twitter-x") (jstr "Twitter/X (Migrated)")
        old.twitterCustomPrompt old.twitterPresetEnabled now)
    else ps
  let ps := if old.linkedinCustomPrompt ≠ [] then
      setPreset ps (migratedPreset (jstr "migrated-linkedin") (jstr "LinkedIn (Migrated)")
        old.linkedinCustomPrompt old.linkedinPresetEnabled now)
    else ps
  let ps := if old.gmailCustomPrompt ≠ [] then
      setPreset ps (migratedPreset (jstr "migrated-gmail") (jstr "Gmail (Migrated)")
        old.gmailCustomPrompt old.gmailPresetEnabled now)
    else ps
  { pm with presets := ps }

/-- Number of non-system presets in a state. -/
def nonSystemCount (pm : PMState) : Nat :=
  (pm.presets.filter (fun p => !p.isSystem)).length

end PresetManager

-- ===============================================
-- SETTINGS PAGE PRESET EDITOR  (settings.js `savePresetChanges`)
-- ===============================================

namespace YapprSettings

inductive SaveErr where
  | nameRequired
  | promptRequired
  | promptTooLong
  | limitReached
  | duplicateName
  | notFound
deriving DecidableEq, Repr

/-- settings.js `savePresetChanges`, operating on the stored preset
collection.  `currentEditing = none` is the creation path; `some id` the
edit path.  `newId` stands for the generated
`custom-${Date.now()}-${random}` id. -/
def savePresetChanges (presets : List Preset) (currentEditing : Option Str)
    (nameInput promptInput : Str) (isEnabled : Bool) (newId : Str) (now : Nat) :
    Except SaveErr (List Preset) :=
  let presetName := jsTrim nameInput
  let prompt := jsTrim promptInput
  if presetName = [] then .error .nameRequired
  else if prompt = [] then .error .promptRequired
  else if prompt.length > 2000 then .error .promptTooLong
  else
    match currentEditing with
    | none =>
      let customPresets := presets.filter (fun p => !p.isSystem)
      if customPresets.length ≥ 2 then .error .limitReached
      else if presets.any (fun p => toLowerStr p.name = toLowerStr presetName) then
        .error .duplicateName
      else
        .ok (PresetManager.setPreset presets
          { id := newId, name := presetName, prompt := prompt
            isDefault := false, isSystem := false, enabled := isEnabled
            createdAt := now, lastUsed := none, usageCount := 0 })
    | some eid =>
      match PresetManager.findPreset presets eid with
      | none => .error .notFound
      | some existing =>
        if existing.isSystem then
          .ok (PresetManager.setPreset presets
            { existing with prompt := prompt, enabled := isEnabled })
        else if presetName ≠ existing.name &&
            presets.any (fun p => p.id ≠ eid && toLowerStr p.name = toLowerStr presetName) then
          .error .duplicateName
        else
          .ok (PresetManager.setPreset presets
            { existing with name := presetName, prompt := prompt, enabled := isEnabled })

end YapprSettings

-- ===============================================
-- ENHANCEMENT SERVICE  (popup.js `EnhancementService`)
-- ===============================================

structure EnhanceResult where
  success : Bool
  isOriginal : Bool
  result : Str
  originalText : Str
  preset : Option Str
  presetId : Option Str
  fallbackReason : Option Str
  charCount : Nat
deriving DecidableEq, Repr

namespace EnhancementService

/-- popup.js `createFallbackResult`. -/
def createFallbackResult (originalText reason : Str) : EnhanceResult :=
  { success := false, isOriginal := true, result := originalText
    originalText := originalText, preset := none, presetId := none
    fallbackReason := some reason, charCount := originalText.length }

/-- The external collaborators of one `enhanceTranscript` call: the busy
flag, the stored API key (empty = absent, as returned by the catch in
`getOpenAIKey`), and the LLM call outcome (`.error m` models any exception
thrown by `callOpenAI`, whose message `m` becomes the fallback reason). -/
structure EnhanceEnv where
  isProcessing : Bool
  apiKey : Str
  llm : Str → Except Str Str

/-- popup.js `enhanceTranscript` (the returned result object; the usage
statistics update on the success path mutates the preset manager, not the
result, and is modelled by `updateUsageStats` separately). -/
def enhanceTranscript (env : EnhanceEnv) (pm : PMState) (rawTranscript : Str)
    (presetId : Option Str) : EnhanceResult :=
  if env.isProcessing then
    createFallbackResult rawTranscript (jstr "already processing")
  else
    let preset? :=
      match presetId with
      | some i =>
        if i ≠ [] then PresetManager.findPreset pm.presets i
        else PresetManager.getSelectedPreset pm
      | none => PresetManager.getSelectedPreset pm
    match preset? with
    | none => createFallbackResult rawTranscript (jstr "no preset selected")
    | some preset =>
      if rawTranscript = [] ∨ (jsTrim rawTranscript).length = 0 then
        createFallbackResult rawTranscript (jstr "empty transcript")
      else
        let raw :=
          if rawTranscript.length > 4000 then rawTranscript.take 4000 ++ jstr "..."
          else rawTranscript
        if env.apiKey = [] then createFallbackResult raw (jstr "no API key")
        else
          let varMap : VarMap :=
            [(jstr "transcript", some raw), (jstr "raw_transcript", some raw)]
          let templateResult := TemplateEngine.render preset.prompt varMap
          if !templateResult.success then
            createFallbackResult raw (jstr "template error")
          else
            match env.llm templateResult.result with
            | .error msg => createFallbackResult raw msg
            | .ok enhancedText =>
              { success := true, isOriginal := false, result := enhancedText
                originalText := raw, preset := some preset.name
                presetId := some preset.id, fallbackReason := none
                charCount := enhancedText.length }

end EnhancementService

-- ===============================================
-- SPEC-SIDE DEFINITIONS AND REACHABILITY
-- ===============================================

/-- The activation-phrase extraction exactly as the specification words it
(for comparison with `extractCleanContent`): if the transcript
(case-insensitive, trimmed) starts with the phrase (case-insensitive,
trimmed), remove the (trimmed) phrase, skip any immediately-following
punctuation characters, then any immediately-following whitespace, and
return the remainder trimmed; otherwise return the transcript unchanged. -/
def specExtractCleanContent (transcript phrase : Str) : Str :=
  if (jsTrim (toLowerStr phrase)).isPrefixOf (jsTrim (toLowerStr transcript)) then
    jsTrim ((((jsTrim transcript).drop (jsTrim phrase).length).dropWhile
      isPhrasePunct).dropWhile isWs)
  else transcript

namespace PresetManager

/-- The fixed ids of presets produced by the legacy migration. -/
def migratedIds : List Str :=
  [jstr "migrated-twitter-x", jstr "migrated-linkedin", jstr "migrated-gmail"]

def isMigratedId (i : Str) : Bool := migratedIds.contains i

/-- Non-system presets that did not come from the legacy migration. -/
def coreCustomCount (pm : PMState) : Nat :=
  (pm.presets.filter (fun p => !p.isSystem && !isMigratedId p.id)).length

/-- Preset-collection states reachable from a fresh install through
initialization (default-preset insertion), legacy migration, successful or
failed creations, and deletions. -/
inductive Reachable : PMState → Prop where
  | base : Reachable ⟨[], none⟩
  | ensure (now : Nat) {s : PMState} :
      Reachable s → Reachable (ensureDefaultPresets now s)
  | migrate (old : LegacyUrlData) (now : Nat) {s : PMState} :
      Reachable s → Reachable (migrateFromUrlSystem s old now)
  | create (name prompt : Str) (now : Nat) {s : PMState} :
      Reachable s → Reachable (createCustomPreset s name prompt now).2
  | delete (pid : Str) {s : PMState} :
      Reachable s → Reachable (deletePreset s pid).2

/-- Reachability when the legacy migration never finds anything to migrate
(equivalently, never runs). -/
inductive ReachableNM : PMState → Prop where
  | base : ReachableNM ⟨[], none⟩
  | ensure (now : Nat) {s : PMState} :
      ReachableNM s → ReachableNM (ensureDefaultPresets now s)
  | create (name prompt : Str) (now : Nat) {s : PMState} :
      ReachableNM s → ReachableNM (createCustomPreset s name prompt now).2
  | delete (pid : Str) {s : PMState} :
      ReachableNM s → ReachableNM (deletePreset s pid).2

end PresetManager

-- ===============================================
-- CONCRETE FIXTURES (used by witnesses and counterexamples)
-- ===============================================

/-- A custom preset named `email`. -/
def presetCustomEmail : Preset :=
  { id := jstr "custom-1", name := jstr "email", prompt := jstr "p"
    isDefault := false, isSystem := false, enabled := true
    createdAt := 0, lastUsed := none, usageCount := 0 }

/-- A small system preset (stands for a stored `default-email`). -/
def presetSysSmall : Preset :=
  { id := jstr "default-email", name := jstr "Email", prompt := jstr "x {transcript}"
    isDefault := true, isSystem := true, enabled := true
    createdAt := 0, lastUsed := none, usageCount := 0 }

def pmCustomEmail : PMState := ⟨[presetCustomEmail], none⟩

def pmSysSmall : PMState := ⟨[presetSysSmall], none⟩

def pmSelWitness : PMState := ⟨[presetCustomEmail], some (jstr "custom-1")⟩

/-- Enhancement collaborators with no stored API key. -/
def envNoKey : EnhancementService.EnhanceEnv :=
  { isProcessing := false, apiKey := [], llm := fun _ => .error [] }

/-- Legacy storage with all three per-site custom prompts present. -/
def fullLegacy : PresetManager.LegacyUrlData :=
  { twitterCustomPrompt := jstr "t", linkedinCustomPrompt := jstr "l"
    gmailCustomPrompt := jstr "g", twitterPresetEnabled := none
    linkedinPresetEnabled := none, gmailPresetEnabled := none }

/-- Fresh install after first initialization. -/
def pmAfterInit : PMState := PresetManager.ensureDefaultPresets 0 ⟨[], none⟩

/-- The state after initialization followed by a legacy migration that
found all three per-site prompts. -/
def pmAfterMigration : PMState :=
  PresetManager.migrateFromUrlSystem pmAfterInit fullLegacy 1

-- ===============================================
-- THEOREMS
-- ===============================================

/-- Helper: after phase 11 the string is empty or ends in a sentence mark. -/
theorem phase11_ends (s : Str) :
    phase11 s = [] ∨ endsSentence (phase11 s) = true := by
  unfold phase11
  split
  · next _ =>
    right
    unfold endsSentence
    rw [List.getLast?_concat]
    rfl
  · next h =>
    by_cases hs : s = []
    · exact Or.inl hs
    · right
      rcases Bool.eq_false_or_eq_true (endsSentence s) with ht | hf
      · exact ht
      · exact absurd ⟨hs, hf⟩ h

/-- C4 (counterexample): `"um"` is a non-empty alphabetic input, yet
`cleanTranscription` returns it unchanged (the filler-removal phases empty
the string, so the original is restored), and the result does not end in
`.`, `!` or `?`. -/
theorem c4_counterexample :
    (jstr "um" ≠ [] ∧ ∀ c ∈ jstr "um", c.isAlpha = true) ∧
    cleanTranscription (jstr "um") = jstr "um" ∧
    endsSentence (cleanTranscription (jstr "um")) = false := by decide

/-- C4 (amended): for every non-empty alphabetic input `x`,
`cleanTranscription x` ends in `.`, `!` or `?`, unless the cleanup phases
produce an empty or whitespace-only string, in which case the original
input is returned unchanged (and may lack a terminal mark). -/
theorem c4_amended (x : Str) (hne : x ≠ []) (_halpha : ∀ c ∈ x, c.isAlpha = true) :
    endsSentence (cleanTranscription x) = true ∨ cleanTranscription x = x := by
  unfold cleanTranscription
  rw [if_neg hne]
  by_cases h :
      phase11 (cleanupPhases (if x.length > 10000 then x.take 10000 ++ jstr "..." else x)) = [] ∨
      jsTrim (phase11 (cleanupPhases
        (if x.length > 10000 then x.take 10000 ++ jstr "..." else x))) = []
  · rw [if_pos h]
    exact Or.inr rfl
  · rw [if_neg h]
    rcases phase11_ends (cleanupPhases
        (if x.length > 10000 then x.take 10000 ++ jstr "..." else x)) with h1 | h1
    · exact absurd (Or.inl h1) h
    · exact Or.inl h1

/-- C4 (witness): the amended theorem applied at the concrete input `"um"`. -/
theorem c4_amended_witness :
    jstr "um" ≠ [] ∧
    (endsSentence (cleanTranscription (jstr "um")) = true ∨
      cleanTranscription (jstr "um") = jstr "um") :=
  ⟨by decide, c4_amended (jstr "um") (by decide) (by decide)⟩

/-- C5 (confirmed): whenever some placeholder variable occurring in the
template is missing (absent, `null`/`undefined`, or the empty string),
`render` fails with the full list of missing names and performs no
substitution (empty result). -/
theorem c5_render_no_partial (template : Str) (vars : VarMap)
    (h : ∃ v ∈ TemplateEngine.extractTemplateVariables template,
      TemplateEngine.isMissingVar vars v = true) :
    (TemplateEngine.render template vars).success = false ∧
    (TemplateEngine.render template vars).result = [] ∧
    (TemplateEngine.render template vars).missingVars =
      TemplateEngine.findMissingVariables
        (TemplateEngine.extractTemplateVariables template) vars := by
  have hm : TemplateEngine.findMissingVariables
      (TemplateEngine.extractTemplateVariables template) vars ≠ [] := by
    obtain ⟨v, hv, hmiss⟩ := h
    intro hnil
    exact (List.filter_eq_nil_iff.mp hnil v hv) hmiss
  by_cases ht : template = []
  · exfalso
    apply hm
    subst ht
    rfl
  · unfold TemplateEngine.render
    rw [if_neg ht, if_pos hm]
    exact ⟨rfl, rfl, rfl⟩

/-- C5 (witness): `render("{a}", {})` fails with missing variables
`["a"]` and an empty result. -/
theorem c5_witness :
    (TemplateEngine.render (jstr "{a}") []).success = false ∧
    (TemplateEngine.render (jstr "{a}") []).result = [] ∧
    (TemplateEngine.render (jstr "{a}") []).missingVars = [jstr "a"] := by
  have h := c5_render_no_partial (jstr "{a}") [] (by decide)
  exact ⟨h.1, h.2.1, by decide⟩

/-- C7 (counterexample): `"It is nice. So be it."` contains exactly two
sentences and no newline, yet `formatTextIntoParagraphs` inserts a blank
line between them (the second sentence matches the discourse-marker
pattern), so a two-sentence input does not pass through with only
whitespace/capitalization normalization. -/
theorem c7_counterexample :
    ((splitOnSent (jstr "It is nice. So be it.").length
        (jstr "It is nice. So be it.")).filter
      (fun s => (jsTrim s).length > 0)).length = 2 ∧
    '\n' ∉ jstr "It is nice. So be it." ∧
    formatTextIntoParagraphs (jstr "It is nice. So be it.") =
      jstr "It is nice.\n\nSo be it." ∧
    '\n' ∈ formatTextIntoParagraphs (jstr "It is nice. So be it.") := by decide

/-- C7 (amended): an input whose sentence split (which interleaves text
segments and delimiter runs) yields at most 2 non-blank parts — in
particular any single-sentence input — passes through unchanged except for
the whitespace normalization `formatCleanText`; inputs with two or more
sentences can additionally gain paragraph breaks from the topic-transition,
time-indicator and discourse-marker heuristics. -/
theorem c7_amended (text : Str) (h1 : jsTrim text ≠ [])
    (h2 : ((splitKeepSeps (formatCleanText text).length (formatCleanText text)).filter
      (fun s => (jsTrim s).length > 0)).length ≤ 2) :
    formatTextIntoParagraphs text = formatCleanText text := by
  unfold formatTextIntoParagraphs
  rw [if_neg ?hg, if_pos h2]
  case hg =>
    rintro (rfl | hlen)
    · exact h1 rfl
    · exact h1 (List.length_eq_zero.mp hlen)

/-- C7 (witness): the amended theorem at the one-sentence input
`"Hello world."`. -/
theorem c7_amended_witness :
    jsTrim (jstr "Hello world.") ≠ [] ∧
    formatTextIntoParagraphs (jstr "Hello world.") =
      formatCleanText (jstr "Hello world.") :=
  ⟨by decide, c7_amended (jstr "Hello world.") (by decide) (by decide)⟩

/-- Helper: the floor of an integer fraction with positive denominator is
Euclidean division. -/
theorem floor_intCast_div_pos (a b : ℤ) (hb : 0 < b) :
    Int.floor ((a : ℚ) / (b : ℚ)) = a / b := by
  have h1 : ((b.toNat : ℕ) : ℤ) = b := Int.toNat_of_nonneg hb.le
  have h2 : ((b.toNat : ℕ) : ℚ) = (b : ℚ) := by exact_mod_cast h1
  rw [← h2, Rat.floor_intCast_div_natCast, h1]

/-- C8 (confirmed): `computeSessionMetrics` is `none` exactly when the raw
text is empty or the duration is non-positive; otherwise `totalWords` is
the whitespace-token count of the full raw string and
`wordsPerMinute = round(totalWords / duration * 60)`; on the spec's example
the totals are 7 words, 42 WPM, and the breakdown maps `um`, `so` and
`like` to 1 each. -/
theorem c8_metrics :
    (∀ (raw : Str) (cleaned : Option Str) (dur : ℚ),
      computeSessionMetrics raw cleaned dur = none ↔ raw = [] ∨ dur ≤ 0) ∧
    (∀ (raw : Str) (cleaned : Option Str) (dur : ℚ) (m : SessionMetrics),
      computeSessionMetrics raw cleaned dur = some m →
      m.totalWords = countWords raw ∧
      m.wordsPerMinute = Int.floor ((countWords raw : ℚ) / dur * 60 + 1/2)) ∧
    ((computeSessionMetrics (jstr "um so like I think this works") none 10).map
        (fun m => (m.totalWords,
          (m.fillerWordsBreakdown.find? (fun kv => kv.1 = jstr "um")).map (·.2),
          (m.fillerWordsBreakdown.find? (fun kv => kv.1 = jstr "so")).map (·.2),
          (m.fillerWordsBreakdown.find? (fun kv => kv.1 = jstr "like")).map (·.2),
          m.wordsPerMinute)) =
      some (7, some 1, some 1, some 1, 42)) := by
  refine ⟨?_, ?_, by decide⟩
  · intro raw cleaned dur
    unfold computeSessionMetrics
    split
    · next h => simp [h]
    · next h => simp [h]
  · intro raw cleaned dur m hm
    unfold computeSessionMetrics at hm
    split at hm
    · exact absurd hm (by simp)
    · next h =>
      injection hm with hm
      subst hm
      have hdur : 0 < dur := not_le.mp (fun hd => h (Or.inr hd))
      refine ⟨rfl, ?_⟩
      show calculateWPM raw dur = _
      unfold calculateWPM jsRoundFrac
      rw [if_neg (not_le.mpr hdur)]
      have hnum : 0 < dur.num := Rat.num_pos.mpr hdur
      have hden0 : (dur.den : ℚ) ≠ 0 := Nat.cast_ne_zero.mpr dur.den_nz
      have hdur0 : (dur : ℚ) ≠ 0 := ne_of_gt hdur
      have hnd : (dur.num : ℚ) = dur * dur.den := (div_eq_iff hden0).mp (Rat.num_div_den dur)
      have key : (countWords raw : ℚ) / dur * 60 + 1/2 =
          ((2 * ((countWords raw : ℤ) * 60 * dur.den) + dur.num : ℤ) : ℚ) /
            ((2 * dur.num : ℤ) : ℚ) := by
        rw [eq_div_iff (by exact_mod_cast (by omega : (2*dur.num : ℤ) ≠ 0))]
        push_cast
        field_simp
        linear_combination (240 * ((countWords raw : ℕ) : ℚ)) * hnd
      rw [key, floor_intCast_div_pos _ _ (by positivity)]

/-- C8 (witness): the theorem applied at `("", _, 10)` (null result) and at
`("hi there", _, 10)` (totalWords from the raw token count). -/
theorem c8_metrics_witness :
    computeSessionMetrics [] none 10 = none ∧
    (computeSessionMetrics (jstr "hi there") none 10).map SessionMetrics.totalWords =
      some (countWords (jstr "hi there")) := by
  refine ⟨(c8_metrics.1 [] none 10).mpr (Or.inl rfl), ?_⟩
  obtain ⟨m, hm⟩ : ∃ m, computeSessionMetrics (jstr "hi there") none 10 = some m :=
    ⟨_, rfl⟩
  rw [hm, Option.map_some']
  exact congrArg some (c8_metrics.2.1 _ none _ m hm).1

/-- C9 (confirmed): the resolved selection is never a disabled preset —
whenever `getSelectedPreset` returns a preset, its `enabled` flag is true
(a stored `selectedPresetId` pointing at a missing or disabled preset
resolves to `none`, the "Off" state). -/
theorem c9_selected_enabled (pm : PMState) (p : Preset)
    (h : PresetManager.getSelectedPreset pm = some p) : p.enabled = true := by
  unfold PresetManager.getSelectedPreset at h
  split at h
  · exact absurd h (by simp)
  · split at h
    · exact absurd h (by simp)
    · split at h
      · exact absurd h (by simp)
      · split at h
        · next hq =>
          injection h with h
          subst h
          exact hq
        · exact absurd h (by simp)

/-- C9 (witness): the theorem applied at a state whose stored selection is
an enabled preset. -/
theorem c9_witness :
    PresetManager.getSelectedPreset pmSelWitness = some presetCustomEmail ∧
    presetCustomEmail.enabled = true :=
  ⟨by decide, c9_selected_enabled pmSelWitness presetCustomEmail (by decide)⟩

/-- C10 (confirmed): failing PresetManager mutations are atomic — deleting
an unknown id or a system preset signals an error and returns the state
unchanged, and selecting an unknown (truthy) id returns `false` with the
state unchanged. -/
theorem c10_failed_mutations_atomic :
    (∀ (pm : PMState) (pid : Str),
      PresetManager.findPreset pm.presets pid = none →
      PresetManager.deletePreset pm pid = (.error (jstr "Preset not found"), pm)) ∧
    (∀ (pm : PMState) (pid : Str) (p : Preset),
      PresetManager.findPreset pm.presets pid = some p → p.isSystem = true →
      PresetManager.deletePreset pm pid =
        (.error (jstr "Cannot delete system preset"), pm)) ∧
    (∀ (pm : PMState) (i : Str), i ≠ [] →
      PresetManager.hasPreset pm.presets i = false →
      PresetManager.selectPreset pm (some i) = (false, pm)) := by
  refine ⟨?_, ?_, ?_⟩
  · intro pm pid h
    unfold PresetManager.deletePreset
    rw [h]
  · intro pm pid p h hsys
    unfold PresetManager.deletePreset
    rw [h]
    simp [hsys]
  · intro pm i hi hhas
    unfold PresetManager.selectPreset
    simp [hi, hhas]

/-- C10 (witness): the theorem applied at concrete states — deleting a
missing preset, deleting a system preset, and selecting an unknown id. -/
theorem c10_witness :
    PresetManager.deletePreset pmCustomEmail (jstr "nope") =
      (.error (jstr "Preset not found"), pmCustomEmail) ∧
    PresetManager.deletePreset pmSysSmall (jstr "default-email") =
      (.error (jstr "Cannot delete system preset"), pmSysSmall) ∧
    PresetManager.selectPreset pmCustomEmail (some (jstr "zzz")) =
      (false, pmCustomEmail) :=
  ⟨c10_failed_mutations_atomic.1 pmCustomEmail (jstr "nope") (by decide),
   c10_failed_mutations_atomic.2.1 pmSysSmall (jstr "default-email") presetSysSmall
     (by decide) (by decide),
   c10_failed_mutations_atomic.2.2 pmCustomEmail (jstr "zzz") (by decide) (by decide)⟩

/-- C2 (counterexample): `PresetManager.createCustomPreset` performs no
name-uniqueness check — with a preset named `email` already present (and
the custom-preset limit not reached) creating a preset named `Email`
succeeds instead of failing. -/
theorem c2_counterexample :
    (∃ p ∈ pmCustomEmail.presets,
      toLowerStr p.name = toLowerStr (jsTrim (jstr "Email"))) ∧
    (PresetManager.createCustomPreset pmCustomEmail (jstr "Email")
      (jstr "hello") 7).1.isOk = true := by decide

/-- C2 (amended): the case-insensitive name-collision check is enforced by
the settings page's `savePresetChanges` creation path, not by
`PresetManager.createCustomPreset`: whenever the (trimmed) new name
collides case-insensitively with any existing preset's name, the creation
path of `savePresetChanges` fails. -/
theorem c2_amended (presets : List Preset) (nameInput promptInput : Str)
    (isEnabled : Bool) (newId : Str) (now : Nat)
    (h : ∃ p ∈ presets, toLowerStr p.name = toLowerStr (jsTrim nameInput)) :
    (YapprSettings.savePresetChanges presets none nameInput promptInput
      isEnabled newId now).isOk = false := by
  obtain ⟨p, hp, hname⟩ := h
  have hany : (presets.any fun q =>
      decide (toLowerStr q.name = toLowerStr (jsTrim nameInput))) = true := by
    simp only [List.any_eq_true, decide_eq_true_eq]
    exact ⟨p, hp, hname⟩
  simp only [YapprSettings.savePresetChanges]
  split
  · rfl
  · split
    · rfl
    · split
      · rfl
      · split
        · rfl
        · rfl

/-- C2 (witness): the amended theorem at the spec's example — creating
`"Email"` through the settings editor while `"email"` exists fails. -/
theorem c2_amended_witness :
    (∃ p ∈ pmCustomEmail.presets,
      toLowerStr p.name = toLowerStr (jsTrim (jstr "Email"))) ∧
    (YapprSettings.savePresetChanges pmCustomEmail.presets none (jstr "Email")
      (jstr "hello") true (jstr "custom-2") 7).isOk = false :=
  ⟨by decide, c2_amended pmCustomEmail.presets (jstr "Email") (jstr "hello")
    true (jstr "custom-2") 7 (by decide)⟩

/-- Helper: a whitespace character is not in the phrase-punctuation class. -/
theorem ws_not_phrasePunct (c : Char) (h : isWs c = true) :
    isPhrasePunct c = false := by
  simp only [isWs, Bool.or_eq_true, decide_eq_true_eq] at h
  rcases h with ((((h | h) | h) | h) | h) | h <;> subst h <;> rfl

/-- Helper: dropping whitespace from an all-whitespace string empties it. -/
theorem dropWhile_allWs_nil {w : Str} (h : ∀ c ∈ w, isWs c = true) :
    w.dropWhile isWs = [] :=
  List.dropWhile_eq_nil_iff.mpr h

/-- Helper: dropping punctuation from an all-whitespace string is a no-op. -/
theorem dropWhilePunct_allWs {w : Str} (h : ∀ c ∈ w, isWs c = true) :
    w.dropWhile isPhrasePunct = w := by
  cases w with
  | nil => rfl
  | cons c cs =>
    refine List.dropWhile_cons_of_neg ?_
    rw [ws_not_phrasePunct c (h c (List.mem_cons_self c cs))]
    exact Bool.false_ne_true

/-- Helper: an all-whitespace suffix does not change `jsTrim`. -/
theorem jsTrim_append_ws {u w : Str} (h : ∀ c ∈ w, isWs c = true) :
    jsTrim (u ++ w) = jsTrim u := by
  unfold jsTrim
  rw [List.dropWhile_append]
  by_cases hu : (u.dropWhile isWs).isEmpty
  · rw [if_pos hu, dropWhile_allWs_nil h, List.isEmpty_iff.mp hu]
  · rw [if_neg hu, List.reverse_append, List.dropWhile_append,
      if_pos (by rw [dropWhile_allWs_nil (fun c hc => h c (List.mem_reverse.mp hc))]; rfl)]

/-- Helper: an all-whitespace suffix does not change
`trim ∘ dropWhile ws ∘ dropWhile punct`. -/
theorem trim_dw_dw_append {b w : Str} (h : ∀ c ∈ w, isWs c = true) :
    jsTrim (((b ++ w).dropWhile isPhrasePunct).dropWhile isWs) =
    jsTrim ((b.dropWhile isPhrasePunct).dropWhile isWs) := by
  rw [List.dropWhile_append (p := isPhrasePunct)]
  by_cases h1 : (b.dropWhile isPhrasePunct).isEmpty
  · rw [if_pos h1, dropWhilePunct_allWs h, dropWhile_allWs_nil h,
      List.isEmpty_iff.mp h1]
    rfl
  · rw [if_neg h1, List.dropWhile_append (p := isWs)]
    by_cases h2 : ((b.dropWhile isPhrasePunct).dropWhile isWs).isEmpty
    · rw [if_pos h2, dropWhile_allWs_nil h, List.isEmpty_iff.mp h2]
    · rw [if_neg h2]
      exact jsTrim_append_ws h

/-- Helper: a string with no leading whitespace splits as its trim followed
by an all-whitespace suffix. -/
theorem trim_decomposition {tr : Str} (hlead : tr.dropWhile isWs = tr) :
    tr = jsTrim tr ++ (tr.reverse.takeWhile isWs).reverse ∧
    (∀ c ∈ (tr.reverse.takeWhile isWs).reverse, isWs c = true) := by
  constructor
  · calc tr = tr.reverse.reverse := (List.reverse_reverse tr).symm
    _ = (tr.reverse.takeWhile isWs ++ tr.reverse.dropWhile isWs).reverse := by
        rw [List.takeWhile_append_dropWhile]
    _ = (tr.reverse.dropWhile isWs).reverse ++ (tr.reverse.takeWhile isWs).reverse :=
        List.reverse_append _ _
    _ = jsTrim tr ++ (tr.reverse.takeWhile isWs).reverse := by
        unfold jsTrim; rw [hlead]
  · intro c hc
    exact List.mem_takeWhile_imp (List.mem_reverse.mp hc)

/-- C6 (counterexample): with leading whitespace on the transcript the
offsets used by `extractCleanContent` misalign — the spec-described
behaviour would give `"Bob"`, but the code returns `"i, Bob"`. -/
theorem c6_counterexample :
    extractCleanContent (jstr "  Hi, Bob") (jstr "Hi,") = jstr "i, Bob" ∧
    specExtractCleanContent (jstr "  Hi, Bob") (jstr "Hi,") = jstr "Bob" ∧
    extractCleanContent (jstr "  Hi, Bob") (jstr "Hi,") ≠
      specExtractCleanContent (jstr "  Hi, Bob") (jstr "Hi,") := by decide

/-- C6 (amended): for a non-empty activation phrase carrying no surrounding
whitespace and a transcript with no leading whitespace,
`extractCleanContent` behaves exactly as the spec words it
(`specExtractCleanContent`): remove the phrase, skip punctuation, skip
whitespace, return the remainder trimmed; otherwise return the transcript
unchanged. -/
theorem c6_amended (tr p : Str) (hpne : p ≠ []) (hp : jsTrim p = p)
    (hlead : tr.dropWhile isWs = tr) :
    extractCleanContent tr p = specExtractCleanContent tr p := by
  unfold extractCleanContent specExtractCleanContent
  by_cases htr : tr = []
  · subst htr
    rw [if_pos (Or.inl rfl)]
    split
    · simp [jsTrim]
    · rfl
  · rw [if_neg (by rintro (h | h); exact htr h; exact hpne h)]
    by_cases hcond :
        ((jsTrim (toLowerStr p)).isPrefixOf (jsTrim (toLowerStr tr))) = true
    · rw [if_pos hcond, if_pos hcond, hp]
      obtain ⟨hdecomp, hws⟩ := trim_decomposition hlead
      conv_lhs => rw [hdecomp]
      rw [List.drop_append_eq_append_drop]
      exact trim_dw_dw_append
        (fun c hc => hws c (List.mem_of_mem_drop hc))
    · rw [if_neg hcond, if_neg hcond]

/-- C6 (witness): the amended theorem at the spec's example, where the
phrase plus trailing comma and space are removed. -/
theorem c6_amended_witness :
    extractCleanContent (jstr "Work note, finish the report.") (jstr "Work note,") =
      specExtractCleanContent (jstr "Work note, finish the report.") (jstr "Work note,") ∧
    extractCleanContent (jstr "Work note, finish the report.") (jstr "Work note,") =
      jstr "finish the report." :=
  ⟨c6_amended _ _ (by decide) (by decide) (by decide), by decide⟩

namespace EnhancementService

/-- Helper: every run of `enhanceTranscript` is a fallback carrying the
untouched input, a fallback carrying the truncated input (only possible for
inputs over 4000 characters), or a success. -/
theorem enhance_cases (env : EnhanceEnv) (pm : PMState) (raw : Str)
    (pid : Option Str) :
    (∃ reason, enhanceTranscript env pm raw pid = createFallbackResult raw reason) ∨
    (∃ reason, raw.length > 4000 ∧ enhanceTranscript env pm raw pid =
      createFallbackResult (raw.take 4000 ++ jstr "...") reason) ∨
    (enhanceTranscript env pm raw pid).success = true := by
  simp only [enhanceTranscript]
  split
  · exact Or.inl ⟨_, rfl⟩
  · split
    · exact Or.inl ⟨_, rfl⟩
    · split
      · exact Or.inl ⟨_, rfl⟩
      · by_cases hl : raw.length > 4000
        · rw [if_pos hl]
          split
          · exact Or.inr (Or.inl ⟨_, hl, rfl⟩)
          · split
            · exact Or.inr (Or.inl ⟨_, hl, rfl⟩)
            · split
              · exact Or.inr (Or.inl ⟨_, hl, rfl⟩)
              · exact Or.inr (Or.inr rfl)
        · rw [if_neg hl]
          split
          · exact Or.inl ⟨_, rfl⟩
          · split
            · exact Or.inl ⟨_, rfl⟩
            · split
              · exact Or.inl ⟨_, rfl⟩
              · exact Or.inr (Or.inr rfl)

/-- Helper: with no stored API key (and a resolvable preset and a non-empty
transcript) the call falls back with reason `"no API key"`, carrying the
input truncated at 4000 characters when it was longer. -/
theorem enhance_noKey (env : EnhanceEnv) (pm : PMState) (raw : Str)
    (h0 : env.isProcessing = false)
    (hsel : (PresetManager.getSelectedPreset pm).isSome = true)
    (hne : ¬(raw = [] ∨ (jsTrim raw).length = 0))
    (hkey : env.apiKey = []) :
    enhanceTranscript env pm raw none =
      createFallbackResult
        (if raw.length > 4000 then raw.take 4000 ++ jstr "..." else raw)
        (jstr "no API key") := by
  obtain ⟨p, hp⟩ := Option.isSome_iff_exists.mp hsel
  simp only [enhanceTranscript, h0, hp, hkey, if_neg hne,
    if_neg Bool.false_ne_true]
  split
  · rfl
  · next hq => exact absurd trivial hq

end EnhancementService

/-- C1 (amended): every failure of `enhanceTranscript` returns
`success = false` with the original transcript as `result` — except that
transcripts longer than 4000 characters are truncated (4000 characters
plus an ellipsis) before the API-key check, so the later failure causes
(no API key, template error, LLM errors) return the truncated text for such
inputs; for transcripts of at most 4000 characters every failure returns
the original unchanged, and with no configured API key (a preset selected,
non-empty transcript) the fallback reason is `"no API key"`. -/
theorem c1_fallback_result :
    (∀ (env : EnhancementService.EnhanceEnv) (pm : PMState) (raw : Str)
        (pid : Option Str),
      (EnhancementService.enhanceTranscript env pm raw pid).success = false →
      (EnhancementService.enhanceTranscript env pm raw pid).result = raw ∨
        (raw.length > 4000 ∧
          (EnhancementService.enhanceTranscript env pm raw pid).result =
            raw.take 4000 ++ jstr "...")) ∧
    (∀ (env : EnhancementService.EnhanceEnv) (pm : PMState) (raw : Str)
        (pid : Option Str),
      (EnhancementService.enhanceTranscript env pm raw pid).success = false →
      raw.length ≤ 4000 →
      (EnhancementService.enhanceTranscript env pm raw pid).result = raw) ∧
    (∀ (env : EnhancementService.EnhanceEnv) (pm : PMState) (raw : Str),
      env.isProcessing = false → env.apiKey = [] →
      (PresetManager.getSelectedPreset pm).isSome = true →
      ¬(raw = [] ∨ (jsTrim raw).length = 0) → raw.length ≤ 4000 →
      (EnhancementService.enhanceTranscript env pm raw none).success = false ∧
      (EnhancementService.enhanceTranscript env pm raw none).result = raw ∧
      (EnhancementService.enhanceTranscript env pm raw none).fallbackReason =
        some (jstr "no API key")) := by
  have part1 : ∀ (env : EnhancementService.EnhanceEnv) (pm : PMState) (raw : Str)
      (pid : Option Str),
      (EnhancementService.enhanceTranscript env pm raw pid).success = false →
      (EnhancementService.enhanceTranscript env pm raw pid).result = raw ∨
        (raw.length > 4000 ∧
          (EnhancementService.enhanceTranscript env pm raw pid).result =
            raw.take 4000 ++ jstr "...") := by
    intro env pm raw pid h
    rcases EnhancementService.enhance_cases env pm raw pid with
      ⟨r, hr⟩ | ⟨r, hl, hr⟩ | hs
    · exact Or.inl (by rw [hr]; rfl)
    · exact Or.inr ⟨hl, by rw [hr]; rfl⟩
    · rw [hs] at h
      exact absurd h (by simp)
  refine ⟨part1, ?_, ?_⟩
  · intro env pm raw pid h hlen
    rcases part1 env pm raw pid h with h1 | ⟨hl, _⟩
    · exact h1
    · omega
  · intro env pm raw h0 hkey hsel hne hlen
    have h := EnhancementService.enhance_noKey env pm raw h0 hsel hne hkey
    rw [if_neg (by omega)] at h
    rw [h]
    exact ⟨rfl, rfl, rfl⟩

/-- C1 (witness): the amended theorem's no-API-key case at a concrete state
with a selected preset and the short transcript `"hello world"`. -/
theorem c1_fallback_witness :
    (EnhancementService.enhanceTranscript envNoKey pmSelWitness
      (jstr "hello world") none).success = false ∧
    (EnhancementService.enhanceTranscript envNoKey pmSelWitness
      (jstr "hello world") none).result = jstr "hello world" ∧
    (EnhancementService.enhanceTranscript envNoKey pmSelWitness
      (jstr "hello world") none).fallbackReason = some (jstr "no API key") :=
  c1_fallback_result.2.2 envNoKey pmSelWitness (jstr "hello world")
    (by decide) (by decide) (by decide) (by decide) (by decide)

/-- C1 (counterexample): for a 4001-character transcript with no API key
(preset selected), the fallback result does not carry the original
transcript — it carries the 4000-character truncation plus an ellipsis —
so "result equal to the original input transcript unchanged for every
failure" is false. -/
theorem c1_counterexample :
    (EnhancementService.enhanceTranscript envNoKey pmSelWitness
      (List.replicate 4001 'a') none).success = false ∧
    (EnhancementService.enhanceTranscript envNoKey pmSelWitness
      (List.replicate 4001 'a') none).fallbackReason = some (jstr "no API key") ∧
    (EnhancementService.enhanceTranscript envNoKey pmSelWitness
      (List.replicate 4001 'a') none).result ≠ List.replicate 4001 'a' := by
  have hdw : (List.replicate 4001 'a').dropWhile isWs = List.replicate 4001 'a' := by
    rw [show (4001 : Nat) = 4000 + 1 from rfl, List.replicate_succ]
    exact List.dropWhile_cons_of_neg (by decide)
  have htrim : jsTrim (List.replicate 4001 'a') = List.replicate 4001 'a' := by
    unfold jsTrim
    rw [hdw, List.reverse_replicate, hdw, List.reverse_replicate]
  have hne : ¬(List.replicate 4001 'a' = [] ∨
      (jsTrim (List.replicate 4001 'a')).length = 0) := by
    rw [htrim]
    rintro (habs | habs)
    · have hlen := congrArg List.length habs
      rw [List.length_replicate] at hlen
      simp only [List.length_nil] at hlen
      omega
    · rw [List.length_replicate] at habs
      omega
  have h := EnhancementService.enhance_noKey envNoKey pmSelWitness
    (List.replicate 4001 'a') rfl (by decide) hne rfl
  rw [if_pos (by rw [List.length_replicate]; omega)] at h
  refine ⟨by rw [h]; rfl, by rw [h]; rfl, ?_⟩
  rw [h]
  intro heq
  have hlen := congrArg List.length heq
  have h3 : (jstr "...").length = 3 := by decide
  simp only [EnhancementService.createFallbackResult, List.length_append,
    List.length_take, List.length_replicate, h3] at hlen
  omega

namespace PresetManager

/-- Helper: a filter count splits along a second predicate. -/
theorem filter_length_split (l : List Preset) (P Q : Preset → Bool) :
    (l.filter P).length =
      (l.filter (fun x => P x && Q x)).length +
      (l.filter (fun x => P x && !Q x)).length := by
  induction l with
  | nil => rfl
  | cons x l ih =>
    cases hP : P x <;> cases hQ : Q x <;>
      simp [List.filter_cons, hP, hQ, ih] <;> omega

/-- Helper: a duplicate-free list contained in another list is no longer
than it. -/
theorem nodup_subset_length {l m : List Str} (d : l.Nodup) (h : l ⊆ m) :
    l.length ≤ m.length :=
  calc l.length = l.toFinset.card := (List.toFinset_card_of_nodup d).symm
  _ ≤ m.toFinset.card := Finset.card_le_card (fun x hx => by
      simp only [List.mem_toFinset] at *
      exact h hx)
  _ ≤ m.length := List.toFinset_card_le m

/-- Helper: replacing the entry with a matching key does not change the id
sequence. -/
theorem replace_map_ids (l : List Preset) (p : Preset) :
    ((l.map (fun q => if q.id = p.id then p else q)).map (fun q => q.id)) =
      l.map (fun q => q.id) := by
  rw [List.map_map]
  apply List.map_congr_left
  intro q _
  by_cases hq : q.id = p.id
  · simp [Function.comp, hq]
  · simp [Function.comp, hq]

/-- Helper: `setPreset` keeps the ids duplicate-free. -/
theorem setPreset_nodup (l : List Preset) (p : Preset)
    (hd : (l.map (fun q => q.id)).Nodup) :
    ((setPreset l p).map (fun q => q.id)).Nodup := by
  unfold setPreset
  split
  · rw [replace_map_ids]
    exact hd
  · next hhas =>
    rw [List.map_append]
    simp only [List.map_cons, List.map_nil]
    rw [List.nodup_append]
    refine ⟨hd, List.nodup_singleton _, ?_⟩
    intro x hx hmem
    simp only [List.mem_singleton] at hmem
    subst hmem
    apply hhas
    simp only [hasPreset, List.any_eq_true, decide_eq_true_eq]
    obtain ⟨q, hq, hqid⟩ := List.mem_map.mp hx
    exact ⟨q, hq, hqid⟩

/-- Helper: if no element carries the key, the replacement map is the
identity. -/
theorem replace_tail_eq (l : List Preset) (p : Preset)
    (h : ∀ x ∈ l, x.id ≠ p.id) :
    l.map (fun q => if q.id = p.id then p else q) = l :=
  (List.map_congr_left fun x hx => if_neg (h x hx)).trans (List.map_id l)

/-- Helper: the key-replacement map grows any filter count by at most one
when the ids are duplicate-free. -/
theorem replace_filter_le (l : List Preset) (p : Preset) (P : Preset → Bool)
    (hd : (l.map (fun q => q.id)).Nodup) :
    ((l.map (fun q => if q.id = p.id then p else q)).filter P).length ≤
      (l.filter P).length + 1 := by
  induction l with
  | nil => simp
  | cons q l ih =>
    rw [List.map_cons, List.nodup_cons] at hd
    obtain ⟨hq_not, hd2⟩ := hd
    by_cases hq : q.id = p.id
    · rw [List.map_cons, if_pos hq]
      have htail : l.map (fun r => if r.id = p.id then p else r) = l := by
        refine replace_tail_eq l p (fun x hx hxp => hq_not ?_)
        rw [← hq] at hxp
        exact hxp ▸ List.mem_map_of_mem (fun r => r.id) hx
      rw [htail]
      cases hPp : P p
      · cases hPq : P q
        · simp [List.filter_cons, hPp, hPq]
        · simp [List.filter_cons, hPp, hPq]
          omega
      · cases hPq : P q
        · simp [List.filter_cons, hPp, hPq]
        · simp [List.filter_cons, hPp, hPq]
    · rw [List.map_cons, if_neg hq]
      have hle := ih hd2
      cases hPq : P q
      · simp [List.filter_cons, hPq]
        omega
      · simp [List.filter_cons, hPq]
        omega

/-- Helper: `setPreset` grows any filter count by at most one (under
duplicate-free ids, so at most one entry is replaced). -/
theorem setPreset_filter_le (l : List Preset) (p : Preset) (P : Preset → Bool)
    (hd : (l.map (fun q => q.id)).Nodup) :
    ((setPreset l p).filter P).length ≤ (l.filter P).length + 1 := by
  unfold setPreset
  split
  · exact replace_filter_le l p P hd
  · rw [List.filter_append]
    cases hPp : P p
    · simp [List.filter_cons, hPp]
    · simp [List.filter_cons, hPp]

/-- Helper: the key-replacement map keeps any filter count when the filter
is false on the new entry and on every entry carrying its key. -/
theorem replace_filter_eq (l : List Preset) (p : Preset) (P : Preset → Bool)
    (hpP : P p = false) (hsame : ∀ q : Preset, q.id = p.id → P q = false) :
    ((l.map (fun q => if q.id = p.id then p else q)).filter P).length =
      (l.filter P).length := by
  induction l with
  | nil => rfl
  | cons q l ih =>
    by_cases hq : q.id = p.id
    · rw [List.map_cons, if_pos hq]
      rw [List.filter_cons, List.filter_cons, hpP, hsame q hq]
      exact ih
    · rw [List.map_cons, if_neg hq]
      rw [List.filter_cons, List.filter_cons]
      cases hPq : P q
      · simpa using ih
      · simpa using ih

/-- Helper: `setPreset` with an entry on which the filter is false (and
whose key only ever carries filter-false entries) keeps the count. -/
theorem setPreset_filter_eq (l : List Preset) (p : Preset) (P : Preset → Bool)
    (hpP : P p = false) (hsame : ∀ q : Preset, q.id = p.id → P q = false) :
    ((setPreset l p).filter P).length = (l.filter P).length := by
  unfold setPreset
  split
  · exact replace_filter_eq l p P hpP hsame
  · rw [List.filter_append]
    simp [List.filter_cons, hpP]

/-- Helper: `setPreset` on an absent key with a filter-false entry keeps
the count. -/
theorem setPreset_absent_filter (l : List Preset) (p : Preset) (P : Preset → Bool)
    (hhas : hasPreset l p.id = false) (hpP : P p = false) :
    ((setPreset l p).filter P).length = (l.filter P).length := by
  unfold setPreset
  rw [hhas]
  simp [List.filter_append, List.filter_cons, hpP]

/-- Helper: the add-if-absent fold used by `ensureDefaultPresets`
preserves duplicate-free ids and every filter count that is false on all
folded entries. -/
theorem foldl_addIfAbsent_inv (P : Preset → Bool) (ds : List Preset)
    (hP : ∀ p ∈ ds, P p = false) :
    ∀ l : List Preset, (l.map (fun q => q.id)).Nodup →
    ((ds.foldl (fun acc p => if hasPreset acc p.id then acc else setPreset acc p)
        l).map (fun q => q.id)).Nodup ∧
    ((ds.foldl (fun acc p => if hasPreset acc p.id then acc else setPreset acc p)
        l).filter P).length = (l.filter P).length := by
  induction ds with
  | nil => intro l hd; exact ⟨hd, rfl⟩
  | cons p ds ih =>
    intro l hd
    simp only [List.foldl_cons]
    by_cases hhas : hasPreset l p.id = true
    · rw [if_pos hhas]
      exact ih (fun q hq => hP q (List.mem_cons_of_mem p hq)) l hd
    · rw [if_neg hhas]
      obtain ⟨hd2, hf2⟩ := ih (fun q hq => hP q (List.mem_cons_of_mem p hq))
        (setPreset l p) (setPreset_nodup l p hd)
      refine ⟨hd2, ?_⟩
      rw [hf2, setPreset_absent_filter l p P (Bool.not_eq_true _ ▸ hhas)
        (hP p (List.mem_cons_self p ds))]

/-- Helper: the three system presets of `getDefaultPresetsDefinition` are
all marked `isSystem`. -/
theorem defaults_isSystem (now : Nat) :
    ∀ p ∈ getDefaultPresetsDefinition now, p.isSystem = true := by
  intro p hp
  simp only [getDefaultPresetsDefinition, List.mem_cons, List.mem_singleton] at hp
  rcases hp with rfl | rfl | rfl | h
  · rfl
  · rfl
  · rfl
  · exact absurd h (List.not_mem_nil p)

/-- Helper: the id generated by `createCustomPreset` is never a migration
id (it starts with `custom-`). -/
theorem customId_not_migrated (x : Str) :
    isMigratedId (jstr "custom-" ++ x) = false := rfl

/-- The predicate counted by `coreCustomCount`. -/
theorem coreCustomCount_def (pm : PMState) :
    coreCustomCount pm =
      (pm.presets.filter (fun p => !p.isSystem && !isMigratedId p.id)).length := rfl

/-- C3 invariant: in every reachable state the preset ids are
duplicate-free and at most 2 non-system presets do not come from the
legacy migration. -/
theorem reachable_inv (s : PMState) (h : Reachable s) :
    (s.presets.map (fun q => q.id)).Nodup ∧ coreCustomCount s ≤ 2 := by
  induction h with
  | base => exact ⟨List.nodup_nil, by decide⟩
  | ensure now hprev ih =>
    obtain ⟨hd, hc⟩ := ih
    have hP : ∀ p ∈ getDefaultPresetsDefinition now,
        (fun p => !p.isSystem && !isMigratedId p.id) p = false := by
      intro p hp
      simp [defaults_isSystem now p hp]
    obtain ⟨hd2, hf2⟩ := foldl_addIfAbsent_inv _ _ hP _ hd
    exact ⟨hd2, by rw [coreCustomCount_def] at hc ⊢; simp only [ensureDefaultPresets]; rw [hf2]; exact hc⟩
  | migrate old now hprev ih =>
    obtain ⟨hd, hc⟩ := ih
    rename_i s0
    have step : ∀ (l : List Preset) (pid pname prompt : Str) (flag : Option Bool),
        isMigratedId pid = true →
        (l.map (fun q => q.id)).Nodup →
        ((setPreset l (migratedPreset pid pname prompt flag now)).map
          (fun q => q.id)).Nodup ∧
        ((setPreset l (migratedPreset pid pname prompt flag now)).filter
          (fun p => !p.isSystem && !isMigratedId p.id)).length =
          (l.filter (fun p => !p.isSystem && !isMigratedId p.id)).length := by
      intro l pid pname prompt flag hmig hdl
      refine ⟨setPreset_nodup l _ hdl, setPreset_filter_eq l _ _ ?_ ?_⟩
      · simp [migratedPreset, hmig]
      · intro q hq
        simp only [migratedPreset] at hq
        simp [hq, hmig]
    simp only [migrateFromUrlSystem, coreCustomCount_def] at *
    set P := fun p : Preset => !p.isSystem && !isMigratedId p.id with hP
    -- chain the three conditional steps
    have go : ∀ (l : List Preset) (pid pname prompt : Str) (flag : Option Bool)
        (cond : Prop) [Decidable cond],
        isMigratedId pid = true →
        (l.map (fun q => q.id)).Nodup →
        (((if cond then setPreset l (migratedPreset pid pname prompt flag now)
            else l).map (fun q => q.id)).Nodup ∧
         ((if cond then setPreset l (migratedPreset pid pname prompt flag now)
            else l).filter P).length = (l.filter P).length) := by
      intro l pid pname prompt flag cond hdec hmig hdl
      by_cases hcond : cond
      · rw [if_pos hcond]
        exact step l pid pname prompt flag hmig hdl
      · rw [if_neg hcond]
        exact ⟨hdl, rfl⟩
    obtain ⟨hdA, hfA⟩ := go s0.presets (jstr "migrated-twitter-x")
      (jstr "Twitter/X (Migrated)") old.twitterCustomPrompt
      old.twitterPresetEnabled (old.twitterCustomPrompt ≠ []) (by decide) hd
    obtain ⟨hdB, hfB⟩ := go _ (jstr "migrated-linkedin")
      (jstr "LinkedIn (Migrated)") old.linkedinCustomPrompt
      old.linkedinPresetEnabled (old.linkedinCustomPrompt ≠ []) (by decide) hdA
    obtain ⟨hdC, hfC⟩ := go _ (jstr "migrated-gmail")
      (jstr "Gmail (Migrated)") old.gmailCustomPrompt
      old.gmailPresetEnabled (old.gmailCustomPrompt ≠ []) (by decide) hdB
    exact ⟨hdC, by rw [hfC, hfB, hfA]; exact hc⟩
  | create name prompt now hprev ih =>
    obtain ⟨hd, hc⟩ := ih
    rename_i s0
    simp only [createCustomPreset]
    split
    · exact ⟨hd, hc⟩
    · split
      · exact ⟨hd, hc⟩
      · next hnotfull =>
        constructor
        · exact setPreset_nodup _ _ hd
        · rw [coreCustomCount_def]
          have hle := setPreset_filter_le s0.presets
            { id := jstr "custom-" ++ (toString now).data
              name := jsTrim name, prompt := jsTrim prompt
              isDefault := false, isSystem := false, enabled := true
              createdAt := now, lastUsed := none, usageCount := 0 }
            (fun p => !p.isSystem && !isMigratedId p.id) hd
          have hsplit := filter_length_split s0.presets
            (fun p => !p.isSystem) (fun p => !isMigratedId p.id)
          have hcount : (s0.presets.filter (fun p => !p.isSystem)).length ≤ 1 := by
            omega
          exact Nat.le_trans hle (by omega)
  | delete pid hprev ih =>
    obtain ⟨hd, hc⟩ := ih
    rename_i s0
    simp only [deletePreset]
    split
    · exact ⟨hd, hc⟩
    · split
      · exact ⟨hd, hc⟩
      · constructor
        · exact List.Sublist.nodup
            (List.Sublist.map _ (List.filter_sublist s0.presets)) hd
        · rw [coreCustomCount_def] at hc ⊢
          exact Nat.le_trans (List.Sublist.length_le (List.Sublist.filter _
            (List.filter_sublist s0.presets))) hc

end PresetManager

namespace PresetManager

/-- C3 invariant without migration: duplicate-free ids and at most 2
non-system presets. -/
theorem reachableNM_inv (s : PMState) (h : ReachableNM s) :
    (s.presets.map (fun q => q.id)).Nodup ∧
    (s.presets.filter (fun p => !p.isSystem)).length ≤ 2 := by
  induction h with
  | base => exact ⟨List.nodup_nil, by decide⟩
  | ensure now hprev ih =>
    obtain ⟨hd, hc⟩ := ih
    have hP : ∀ p ∈ getDefaultPresetsDefinition now,
        (fun p => !p.isSystem) p = false := by
      intro p hp
      simp [defaults_isSystem now p hp]
    obtain ⟨hd2, hf2⟩ := foldl_addIfAbsent_inv _ _ hP _ hd
    refine ⟨hd2, ?_⟩
    simp only [ensureDefaultPresets]
    rw [hf2]
    exact hc
  | create name prompt now hprev ih =>
    obtain ⟨hd, hc⟩ := ih
    rename_i s0
    simp only [createCustomPreset]
    split
    · exact ⟨hd, hc⟩
    · split
      · exact ⟨hd, hc⟩
      · next hnotfull =>
        refine ⟨setPreset_nodup _ _ hd, ?_⟩
        have hle := setPreset_filter_le s0.presets
          { id := jstr "custom-" ++ (toString now).data
            name := jsTrim name, prompt := jsTrim prompt
            isDefault := false, isSystem := false, enabled := true
            createdAt := now, lastUsed := none, usageCount := 0 }
          (fun p => !p.isSystem) hd
        exact Nat.le_trans hle (by omega)
  | delete pid hprev ih =>
    obtain ⟨hd, hc⟩ := ih
    rename_i s0
    simp only [deletePreset]
    split
    · exact ⟨hd, hc⟩
    · split
      · exact ⟨hd, hc⟩
      · refine ⟨List.Sublist.nodup
          (List.Sublist.map _ (List.filter_sublist s0.presets)) hd, ?_⟩
        exact Nat.le_trans (List.Sublist.length_le (List.Sublist.filter _
          (List.filter_sublist s0.presets))) hc

/-- C3 bound: in every reachable state there are at most 5 non-system
presets (2 user-created plus at most 3 migrated). -/
theorem reachable_nonSystem_le_five (s : PMState) (h : Reachable s) :
    nonSystemCount s ≤ 5 := by
  obtain ⟨hd, hc⟩ := reachable_inv s h
  have hsplit := filter_length_split s.presets
    (fun p => !p.isSystem) (fun p => !isMigratedId p.id)
  have hmig : (s.presets.filter
      (fun x => !x.isSystem && !!isMigratedId x.id)).length ≤ 3 := by
    have hnod : ((s.presets.filter
        (fun x => !x.isSystem && !!isMigratedId x.id)).map (fun q => q.id)).Nodup :=
      List.Sublist.nodup (List.Sublist.map _ (List.filter_sublist _)) hd
    have hsubset : ((s.presets.filter
        (fun x => !x.isSystem && !!isMigratedId x.id)).map (fun q => q.id)) ⊆
        migratedIds := by
      intro x hx
      obtain ⟨p, hp, rfl⟩ := List.mem_map.mp hx
      have hmem := (List.mem_filter.mp hp).2
      simp only [Bool.and_eq_true, Bool.not_not] at hmem
      have hmid := hmem.2
      simp only [isMigratedId] at hmid
      simpa using hmid
    have hlen := nodup_subset_length hnod hsubset
    rw [List.length_map] at hlen
    simpa using hlen
  rw [coreCustomCount_def] at hc
  unfold nonSystemCount
  omega

end PresetManager

/-- C3 (counterexample): after first-run initialization followed by the
legacy migration with all three per-site prompts present, a reachable
state holds 3 non-system presets — the "at most 2 non-system presets in
every reachable state" claim is false. -/
theorem c3_counterexample :
    PresetManager.Reachable pmAfterMigration ∧
    PresetManager.nonSystemCount pmAfterMigration = 3 :=
  ⟨PresetManager.Reachable.migrate fullLegacy 1
      (PresetManager.Reachable.ensure 0 PresetManager.Reachable.base),
   by decide⟩

/-- C3 (amended): without legacy migration every reachable state has at
most 2 non-system presets; the migration can add its three fixed-id
migrated presets, so in general reachable states hold at most 5
non-system presets; and `createCustomPreset` fails with the limit error
exactly when (given non-empty name and prompt) at least 2 non-system
presets are already present. -/
theorem c3_preset_limits :
    (∀ s : PMState, PresetManager.ReachableNM s →
      PresetManager.nonSystemCount s ≤ 2) ∧
    (∀ s : PMState, PresetManager.Reachable s →
      PresetManager.nonSystemCount s ≤ 5) ∧
    (∀ (pm : PMState) (name prompt : Str) (now : Nat),
      (PresetManager.createCustomPreset pm name prompt now).1 =
        Except.error PresetManager.CreateErr.limitReached ↔
      (name ≠ [] ∧ prompt ≠ [] ∧ 2 ≤ PresetManager.nonSystemCount pm)) := by
  refine ⟨?_, PresetManager.reachable_nonSystem_le_five, ?_⟩
  · intro s h
    exact (PresetManager.reachableNM_inv s h).2
  · intro pm name prompt now
    unfold PresetManager.createCustomPreset
    by_cases h1 : name = [] ∨ prompt = []
    · rw [if_pos h1]
      constructor
      · intro habs
        exact absurd habs (by simp)
      · rintro ⟨hn, hp, _⟩
        rcases h1 with h1 | h1
        · exact absurd h1 hn
        · exact absurd h1 hp
    · rw [if_neg h1]
      push_neg at h1
      by_cases h2 : (pm.presets.filter (fun p => !p.isSystem)).length ≥ 2
      · rw [if_pos h2]
        simp only [true_iff]
        exact ⟨h1.1, h1.2, h2⟩
      · rw [if_neg h2]
        constructor
        · intro habs
          exact absurd habs (by simp)
        · rintro ⟨_, _, hcount⟩
          exact absurd hcount h2

/-- C3 (witness): the amended theorem applied at the empty initial state
(no-migration bound), at the migrated state (general bound), and at a
one-custom-preset state (the limit error does not fire below 2). -/
theorem c3_preset_limits_witness :
    PresetManager.nonSystemCount (⟨[], none⟩ : PMState) ≤ 2 ∧
    PresetManager.nonSystemCount pmAfterMigration ≤ 5 ∧
    ((PresetManager.createCustomPreset pmCustomEmail (jstr "A") (jstr "B") 9).1 =
      Except.error PresetManager.CreateErr.limitReached ↔
      (jstr "A" ≠ [] ∧ jstr "B" ≠ [] ∧
        2 ≤ PresetManager.nonSystemCount pmCustomEmail)) :=
  ⟨c3_preset_limits.1 _ PresetManager.ReachableNM.base,
   c3_preset_limits.2.1 _ (PresetManager.Reachable.migrate fullLegacy 1
      (PresetManager.Reachable.ensure 0 PresetManager.Reachable.base)),
   c3_preset_limits.2.2 pmCustomEmail (jstr "A") (jstr "B") 9⟩
